import Mathlib

/-!
Shallow embedding of the shift-status reconciliation core of
`galaxy_api_sync.py` (class `GalaxyAPISync`), covering:

* `_create_shifts_from_needs` and `_create_synthetic_shifts_for_need`
  (the shift extractor, lines 976-1170),
* `_assign_users_from_responses` (the signup binder, lines 1682-1759),
* `_correlate_hours_to_shifts` (the time-log correlator, lines 1761-2003),
* `_save_shift_status_data` (the shift-status writer, lines 2005-2076),
* `_process_synthetic_shifts_for_approved_hours` (the orphan time-log
  synthesizer, lines 2078-2280),
* `_generate_shift_status` (the driving pass, lines 917-970).

Modelling conventions:

* Mongo documents are Lean structures; a missing field is `none`.
  Python truthiness is modelled explicitly (`0`, `""`, `[]`, `None` and
  the empty dict are falsy).
* Timestamps are integers (seconds); stored timestamps are always full
  datetimes in Mongo, so `datetime.date()` is the floor-division day and
  the "date-only values" fallback of the same-day matching rule is
  unreachable and collapses to the datetime branch.
* Durations are exact rationals `Q` (a normalised fraction type defined
  here so that every operation evaluates inside the kernel); `float`
  parsing of a stored numeric value never fails, so the `ValueError`
  fallbacks of the source are only reachable through an absent value.
* The per-record `datetime.utcnow()` stamp is modelled by a single
  `syncTime` argument per pass; the synthesizer's `str(total_duration)`
  rendering keeps the numeric value.
* The `checkout_analysis` sub-document duplicates the four provenance
  flags and the checkout status verbatim and is not given its own fields.
-/

/-! ## Exact rationals that evaluate in the kernel -/

structure Q where
  num : Int
  den : Int
deriving DecidableEq, Repr

def qnorm (n d : Int) : Q :=
  if d = 0 then ⟨0, 1⟩
  else
    let s : Int := if d < 0 then -1 else 1
    let g : Int := Int.ofNat (Nat.gcd n.natAbs d.natAbs)
    if g = 0 then ⟨0, s * d⟩ else ⟨s * n / g, s * d / g⟩

def Q.ofInt (n : Int) : Q := ⟨n, 1⟩

def qadd (a b : Q) : Q := qnorm (a.num * b.den + b.num * a.den) (a.den * b.den)

def qdiv (a b : Q) : Q := qnorm (a.num * b.den) (a.den * b.num)

/-- `a < b` for normalised values (positive denominators). -/
def qblt (a b : Q) : Bool := a.num * b.den < b.num * a.den

def qIsZero (a : Q) : Bool := a.num == 0

/-! ## String helpers (kernel-computable replacements for
`str.lower()` and the `in` substring test) -/

def listStarts : List Char → List Char → Bool
  | [], _ => true
  | _ :: _, [] => false
  | a :: as, b :: bs => a == b && listStarts as bs

def listHasInfix (needle : List Char) : List Char → Bool
  | [] => needle.isEmpty
  | c :: rest => listStarts needle (c :: rest) || listHasInfix needle rest

def lowerStr (s : String) : String := String.mk (s.data.map Char.toLower)

/-- Python `needle in hay`. -/
def strContains (hay needle : String) : Bool := listHasInfix needle.data hay.data

/-! ## Python truthiness and `or`-chains over optional fields -/

/-- Python `a or b` on values whose only falsy inhabitant is `None`
(datetimes, non-empty containers). -/
def oor {α : Type} : Option α → Option α → Option α
  | some a, _ => some a
  | none, b => b

/-- Python truthiness of an optional string (empty string is falsy). -/
def strTruthy : Option String → Bool
  | some s => s != ""
  | none => false

/-- Python `a or b` on optional strings. -/
def orStr (a b : Option String) : Option String := if strTruthy a then a else b

/-- Python truthiness of an optional number (`0` is falsy). -/
def natTruthy : Option Nat → Bool
  | some n => n != 0
  | none => false

/-- Python truthiness of an optional numeric duration (`0` and `0.0` falsy). -/
def qTruthy : Option Q → Bool
  | some q => !qIsZero q
  | none => false

/-- Python `a or b` on optional numeric durations. -/
def orQ (a b : Option Q) : Option Q := if qTruthy a then a else b

/-! ## Identifiers

Mongo stores upstream identifiers as numbers and the synthesizer's
generated identifiers as strings; equality across the two types is
always false, as in BSON comparison. -/

inductive MId where
  | num : Nat → MId
  | str : String → MId
deriving DecidableEq, Repr

/-- Python truthiness of an identifier value (`0` and `""` falsy). -/
def MId.truthy : MId → Bool
  | .num n => n != 0
  | .str s => s != ""

def idTruthy : Option MId → Bool
  | some i => i.truthy
  | none => false

/-- Calendar day of an epoch-seconds timestamp (`datetime.date()`). -/
def dayKey (t : Int) : Int := Int.fdiv t 86400

/-! ## Source documents (read-only collections) -/

/-- An element of a need's embedded `shifts` array. -/
structure RawShift where
  id : Option MId := none
  start : Option Int := none
  «end» : Option Int := none
  duration : Option Q := none
  slots : Option Nat := none
deriving DecidableEq, Repr

/-- A document of the `needs` collection (fields used by the core). -/
structure Need where
  id : Option Nat := none
  need_title : Option String := none
  shifts : List RawShift := []
  need_hours : Option Q := none
  need_date_start : Option Int := none
  need_date_end : Option Int := none
deriving DecidableEq, Repr

/-- An embedded `user` object on a response or hour document. -/
structure RUser where
  id : Option Nat := none
  domain_id : Option Nat := none
  user_fname : Option String := none
  user_lname : Option String := none
  user_email : Option String := none
deriving DecidableEq, Repr

/-- A document of the `responses` collection. `need_id` and `shift_id`
are the embedded `need.id` and `shift.id` values. -/
structure Response where
  user : Option RUser := none
  need_id : Option Nat := none
  shift_id : Option MId := none
  response_status : Option String := none
  status : Option String := none
deriving DecidableEq, Repr

/-- A document of the `hours` collection. `need_id`/`need_title` and
`shift_id` are the embedded `need.id`, `need.title` and `shift.id`
values; the several names for one datum mirror the source's
`get(..) or get(..)` alias chains. -/
structure Hour where
  id : Option Nat := none
  user : Option RUser := none
  need_id : Option Nat := none
  need_title : Option String := none
  shift_id : Option MId := none
  hour_date_start : Option Int := none
  date_start : Option Int := none
  hour_date_end : Option Int := none
  date_end : Option Int := none
  hour_date_created : Option Int := none
  created_at : Option Int := none
  hour_date_updated : Option Int := none
  updated_at : Option Int := none
  hour_status : Option String := none
  status : Option String := none
  hour_duration : Option Q := none
  hour_hours : Option Q := none
  duration : Option Q := none
  hour_source : Option String := none
deriving DecidableEq, Repr

/-! ## Derived documents -/

/-- One volunteer's state within one shift (`ShiftStatus.User`).
Linked-log fields are absent until a correlated hour sets them. -/
structure UserEntry where
  id : Nat
  domain_id : Option Nat := none
  user_fname : Option String := none
  user_lname : Option String := none
  user_email : Option String := none
  checkin_status : String
  hour_id : Option Nat := none
  hour_status : Option String := none
  hour_source : Option String := none
  hour_duration : Option Q := none
  hour_date_start : Option Int := none
  hour_date_end : Option Int := none
  hour_date_created : Option Int := none
  hour_date_updated : Option Int := none
  checkout_status : Option String := none
  has_checkin : Option Bool := none
  has_checkout : Option Bool := none
  has_manager_approval : Option Bool := none
  has_kiosk_activity : Option Bool := none
  duration : Option Q := none
deriving DecidableEq, Repr

/-- A document of the derived `shift_status` collection.  The writer
uses the `id` field as the Mongo `_id`, so `id` is the storage key. -/
structure ShiftStatus where
  id : MId
  start : Option Int := none
  «end» : Option Int := none
  duration : Option Q := none
  slots : Nat := 0
  need_id : Nat := 0
  title : Option String := none
  users : List UserEntry := []
  slots_filled : Nat := 0
  synced_at : Int := 0
  sync_source : String := "aggregation"
deriving DecidableEq, Repr

/-! ## Shift extractor (`_create_shifts_from_needs`, lines 976-1088) -/

/-- The `shifts.start >= now` element-match used by the needs query
when `future_only` is set. -/
def rawShiftFutureOk (now : Int) (s : RawShift) : Bool :=
  match s.start with
  | some t => now ≤ t
  | none => false

/-- The Mongo filter of lines 993-998: needs with a non-empty `shifts`
array, and in future-only mode additionally some shift starting at or
after `now`. -/
def needsFilter (futureOnly : Bool) (now : Int) (nd : Need) : Bool :=
  !nd.shifts.isEmpty && (!futureOnly || nd.shifts.any (rawShiftFutureOk now))

/-- Fallback query of lines 1012-1025: needs carrying flat
`need_date_start`/`need_date_end` fields, used only when the primary
filter matches nothing. -/
def needsAltFilter (nd : Need) : Bool :=
  nd.need_date_start.isSome && nd.need_date_end.isSome

/-- Hard-coded allow-list of lines 1043-1044. -/
def problematic_need_ids : List Nat := [800197]

/-- `hour.get("hour_date_start") or hour.get("date_start")`. -/
def hourStartOf (h : Hour) : Option Int := oor h.hour_date_start h.date_start

/-- `hour.get("hour_date_end") or hour.get("date_end")`. -/
def hourEndOf (h : Hour) : Option Int := oor h.hour_date_end h.date_end

/-- Day-grouping of hours (lines 1113-1136): an association list in
first-appearance order, keyed by the calendar day of the hour's start. -/
def insertByDay (acc : List (Int × List Hour)) (d : Int) (h : Hour) :
    List (Int × List Hour) :=
  if acc.any (fun p => p.1 == d) then
    acc.map (fun p => if p.1 == d then (p.1, p.2 ++ [h]) else p)
  else acc ++ [(d, [h])]

def groupHoursByDay (hours : List Hour) : List (Int × List Hour) :=
  hours.foldl
    (fun acc h =>
      match hourStartOf h with
      | none => acc
      | some t => insertByDay acc (dayKey t) h)
    []

/-- `min_start` of lines 1141-1149: running minimum over present starts. -/
def minStartOf (hs : List Hour) : Option Int :=
  hs.foldl
    (fun acc h =>
      match hourStartOf h with
      | none => acc
      | some t =>
        match acc with
        | none => some t
        | some m => if t < m then some t else some m)
    none

/-- `max_end` of lines 1141-1152. -/
def maxEndOf (hs : List Hour) : Option Int :=
  hs.foldl
    (fun acc h =>
      match hourEndOf h with
      | none => acc
      | some t =>
        match acc with
        | none => some t
        | some m => if m < t then some t else some m)
    none

/-- Sum of `float(h.get("hour_duration") or 0)` over a day's hours. -/
def sumDayDurations (hs : List Hour) : Q :=
  hs.foldl (fun acc h => qadd acc ((h.hour_duration).getD (Q.ofInt 0))) (Q.ofInt 0)

/-- `_create_synthetic_shifts_for_need` (lines 1090-1170): one synthetic
raw shift per calendar day found among the need's hours, window
`[min start, max end]`, duration the mean of the day's durations,
capacity the day's log count.  The synthesized identifier is the first
hour's identifier (the `f"synthetic_{day}"` fallback is reachable only
from an empty group, which the grouping never produces). -/
def create_synthetic_shifts_for_need (dbHours : List Hour) (needId : Nat) :
    List RawShift :=
  let hours := dbHours.filter (fun h => h.need_id == some needId)
  (groupHoursByDay hours).filterMap
    (fun p =>
      let dayHours := p.2
      match minStartOf dayHours, maxEndOf dayHours with
      | some a, some b =>
        some
          { id :=
              match dayHours with
              | [] => some (MId.str ("synthetic_" ++ toString p.1))
              | h :: _ => h.id.map MId.num
            start := some a
            «end» := some b
            duration := some (qdiv (sumDayDurations dayHours) (Q.ofInt dayHours.length))
            slots := some dayHours.length }
      | _, _ => none)

/-- The basic shift-status record of lines 1066-1078. -/
def mkShiftStatus (syncTime : Int) (nd : Need) (needId : Nat) (s : RawShift)
    (sid : MId) : ShiftStatus :=
  { id := sid
    start := s.start
    «end» := s.«end»
    duration := orQ s.duration nd.need_hours
    slots := s.slots.getD 0
    need_id := needId
    title := nd.need_title
    users := []
    slots_filled := 0
    synced_at := syncTime
    sync_source := "aggregation" }

/-- `_create_shifts_from_needs`: select needs, fall back to the
date-field query when nothing matches, substitute synthetic shifts for
the allow-listed needs that lack a shifts array, and emit one bare
record per shift that carries a truthy identifier. -/
def create_shifts_from_needs (futureOnly : Bool) (now : Int)
    (needs : List Need) (dbHours : List Hour) : List ShiftStatus :=
  let filtered := needs.filter (needsFilter futureOnly now)
  let selected := if filtered.isEmpty then needs.filter needsAltFilter else filtered
  selected.foldl
    (fun acc nd =>
      match nd.id with
      | none => acc
      | some nid =>
        if nid == 0 then acc
        else
          let shifts0 := nd.shifts
          let shifts :=
            if problematic_need_ids.contains nid && shifts0.isEmpty then
              let syn := create_synthetic_shifts_for_need dbHours nid
              if syn.isEmpty then shifts0 else syn
            else shifts0
          shifts.foldl
            (fun acc2 s =>
              match s.id with
              | none => acc2
              | some sid =>
                if sid.truthy then acc2 ++ [mkShiftStatus now nd nid s sid]
                else acc2)
            acc)
    []

/-! ## Signup binder (`_assign_users_from_responses`, lines 1682-1759) -/

/-- `response.get("response_status") or response.get("status")`. -/
def respStatusOf (r : Response) : Option String :=
  orStr r.response_status r.status

/-- Provisional status of lines 1728-1735. -/
def checkinFromResponse (rs : Option String) : String :=
  if strTruthy rs && (lowerStr (rs.getD "") == "active") then "pending"
  else if strTruthy rs && (lowerStr (rs.getD "") == "inactive") then "cancelled"
  else "absent"

/-- The user entry created from a response (lines 1737-1745). -/
def userEntryFromResponse (u : RUser) (uid : Nat) (st : String) : UserEntry :=
  { id := uid
    domain_id := u.domain_id
    user_fname := u.user_fname
    user_lname := u.user_lname
    user_email := u.user_email
    checkin_status := st }

/-- Lines 1749-1752: mutate the first already-present entry for the
volunteer, and only when it is still `absent` and the new provisional
status is not `absent`. -/
def upgradeAbsent (uid : Nat) (st : String) : List UserEntry → List UserEntry
  | [] => []
  | x :: xs =>
    if x.id == uid then
      (if st != "absent" && x.checkin_status == "absent" then
        { x with checkin_status := st } :: xs
      else x :: xs)
    else x :: upgradeAbsent uid st xs

/-- Processing of one response against one shift (lines 1713-1754). -/
def addResponseToShift (sh : ShiftStatus) (r : Response) : ShiftStatus :=
  match r.user with
  | none => sh
  | some u =>
    match u.id with
    | none => sh
    | some uid =>
      if uid == 0 then sh
      else
        let st := checkinFromResponse (respStatusOf r)
        if sh.users.any (fun x => x.id == uid) then
          { sh with users := upgradeAbsent uid st sh.users }
        else
          { sh with users := sh.users ++ [userEntryFromResponse u uid st] }

/-- The responses fetched for one shift (line 1706) folded into it. -/
def bindShiftResponses (responses : List Response) (sh : ShiftStatus) :
    ShiftStatus :=
  if sh.need_id == 0 || !sh.id.truthy then sh
  else
    (responses.filter
        (fun r => r.need_id == some sh.need_id && r.shift_id == some sh.id)).foldl
      addResponseToShift sh

def assign_users_from_responses (responses : List Response)
    (list : List ShiftStatus) : List ShiftStatus :=
  list.map (bindShiftResponses responses)

/-! ## Time-log correlator (`_correlate_hours_to_shifts`, lines 1761-2003) -/

/-- `hour.get("hour_status") or hour.get("status")`. -/
def hourStatusOf (h : Hour) : Option String := orStr h.hour_status h.status

/-- `hour.get("hour_date_created") or hour.get("created_at")`. -/
def hourCreatedOf (h : Hour) : Option Int := oor h.hour_date_created h.created_at

/-- `hour.get("hour_date_updated") or hour.get("updated_at")`. -/
def hourUpdatedOf (h : Hour) : Option Int := oor h.hour_date_updated h.updated_at

/-- `hour.get("hour_duration") or hour.get("hour_hours") or hour.get("duration")`. -/
def hourDurationOf (h : Hour) : Option Q := orQ h.hour_duration (orQ h.hour_hours h.duration)

/-- `user_obj.get("id") if user_obj else None` for an hour document. -/
def hourUserId (h : Hour) : Option Nat := h.user.bind RUser.id

/-- Membership of a shift in the per-need group built at lines 1774-1781
(only truthy `need_id` values are grouped). -/
def inGroup (n : Nat) (s : ShiftStatus) : Bool := s.need_id == n && n != 0

/-- Lines 1812-1817: a truthy embedded shift identifier with at least
one identifier match inside the need's group switches matching to
direct-identifier mode for that hour. -/
def directApplies (h : Hour) (n : Nat) (group : List ShiftStatus) : Bool :=
  match h.shift_id with
  | some sid => sid.truthy && group.any (fun s => inGroup n s && s.id == sid)
  | none => false

/-- Time-window matching of lines 1820-1868, evaluated only when no
direct identifier match was found: exact window, containment, overlap,
or same calendar day with starts within one hour of each other. -/
def timeMatch (h : Hour) (s : ShiftStatus) : Bool :=
  match hourStartOf h, hourEndOf h with
  | some hs, some he =>
    match s.start, s.«end» with
    | some ss, some se =>
      let exactMatch := hs == ss && he == se
      let withinShift := ss ≤ hs && he ≤ se
      let startsDuring := ss ≤ hs && hs < se
      let endsDuring := ss < he && he ≤ se
      let containsShift := hs ≤ ss && se ≤ he
      let overlapsShift := startsDuring || endsDuring || containsShift
      let sameDateMatch := dayKey ss == dayKey hs && (hs - ss).natAbs ≤ 3600
      exactMatch || withinShift || overlapsShift || sameDateMatch
    | _, _ => false
  | _, _ => false

/-- Whether the hour is applied to candidate shift `s` (lines 1809-1868):
direct identifier matches take the hour exclusively when any exist in
the group, otherwise the time-window strategies run. -/
def hourMatchesShift (h : Hour) (n : Nat) (group : List ShiftStatus)
    (s : ShiftStatus) : Bool :=
  if directApplies h n group then h.shift_id == some s.id
  else timeMatch h s

/-- Denial test of lines 1895-1898. -/
def statusIndicatesDenial (st : Option String) : Bool :=
  strTruthy st &&
    (let l := lowerStr (st.getD "")
     l == "denied" || strContains l "denied" || l == "deny" || strContains l "reject")

/-- Approval test of lines 1900-1903. -/
def statusIndicatesApproval (st : Option String) : Bool :=
  strTruthy st &&
    (let l := lowerStr (st.getD "")
     l == "approved" || l == "a" || l == "approve" || strContains l "approve")

/-- The fixed-priority state derivation of lines 1894-1910: denial,
then approval, then positive duration, then a created/updated
timestamp difference, else `active`. -/
def deriveCheckinStatus (st : Option String) (created updated : Option Int)
    (dur : Option Q) : String :=
  if statusIndicatesDenial st then "cancelled"
  else if statusIndicatesApproval st then "completed"
  else if qTruthy dur && qblt (Q.ofInt 0) (dur.getD (Q.ofInt 0)) then "completed"
  else if created.isSome && updated.isSome && created != updated then "completed"
  else "active"

/-- The four provenance flags in derivation order (lines 1912-1934). -/
structure SourceFlags where
  has_checkin : Bool
  has_checkout : Bool
  has_manager_approval : Bool
  has_kiosk_activity : Bool
deriving DecidableEq, Repr

def manager_patterns : List String :=
  ["/manager/hours/", "/admin/", "manager", "admin", "approved", "approve"]

/-- Case-insensitive substring classification of `hour_source`
(lines 1918-1934); an empty source string yields no flags. -/
def classifySource (src : String) : SourceFlags :=
  if src == "" then ⟨false, false, false, false⟩
  else
    let l := lowerStr src
    { has_checkin := strContains l "checkin" || strContains l "storecheckin"
      has_checkout := strContains l "checkout" || strContains l "storecheckout"
      has_manager_approval :=
        manager_patterns.any (fun p => strContains l (lowerStr p))
      has_kiosk_activity := strContains l "/kiosk/" }

/-- `checkout_status` of lines 1936-1946: only a (case-insensitively)
pending log gets a flag summary; everything else is `"unknown"`. -/
def deriveCheckoutStatus (st : Option String) (f : SourceFlags) : String :=
  if strTruthy st && (lowerStr (st.getD "") == "pending") then
    if f.has_checkin && f.has_checkout then "checked_in_and_out"
    else if f.has_checkin && !f.has_checkout then "checked_in_only"
    else if f.has_manager_approval then "manager_approved"
    else "no_checkin_activity"
  else "unknown"

/-- The bare entry appended when the hour's volunteer was not yet on the
shift (lines 1876-1886). -/
def baseUserFromHour (uobj : RUser) (uid : Nat) : UserEntry :=
  { id := uid
    domain_id := uobj.domain_id
    user_fname := uobj.user_fname
    user_lname := uobj.user_lname
    user_email := uobj.user_email
    checkin_status := "absent" }

/-- `user_entry.update({...})` of lines 1888-1987: derive the status,
provenance flags and checkout summary from the hour and overwrite every
linked-log field; the `duration` float falls back to the log window
when the stored duration is falsy. -/
def applyHourToUser (h : Hour) (u : UserEntry) : UserEntry :=
  let hst := hourStatusOf h
  let hc := hourCreatedOf h
  let hu := hourUpdatedOf h
  let hd := hourDurationOf h
  let hsrc := h.hour_source.getD ""
  let f := classifySource hsrc
  let hs := hourStartOf h
  let he := hourEndOf h
  let base :=
    { u with
      checkin_status := deriveCheckinStatus hst hc hu hd
      hour_id := h.id
      hour_status := hst
      hour_source := some hsrc
      hour_duration := hd
      hour_date_start := hs
      hour_date_end := he
      hour_date_created := hc
      hour_date_updated := hu
      checkout_status := some (deriveCheckoutStatus hst f)
      has_checkin := some f.has_checkin
      has_checkout := some f.has_checkout
      has_manager_approval := some f.has_manager_approval
      has_kiosk_activity := some f.has_kiosk_activity }
  if qTruthy hd then { base with duration := hd }
  else
    match hs, he with
    | some a, some b => { base with duration := some (qdiv (Q.ofInt (b - a)) (Q.ofInt 3600)) }
    | _, _ => base

/-- Replace the first entry carrying the volunteer's identifier. -/
def updateFirst (uid : Nat) (f : UserEntry → UserEntry) :
    List UserEntry → List UserEntry
  | [] => []
  | x :: xs => if x.id == uid then f x :: xs else x :: updateFirst uid f xs

/-- Application of one matching hour to one shift (lines 1872-1886). -/
def applyHourToShift (h : Hour) (uobj : RUser) (uid : Nat) (s : ShiftStatus) :
    ShiftStatus :=
  if s.users.any (fun x => x.id == uid) then
    { s with users := updateFirst uid (applyHourToUser h) s.users }
  else
    { s with users := s.users ++ [applyHourToUser h (baseUserFromHour uobj uid)] }

/-- Processing of one hour against a need's group (lines 1791-1989):
skip hours without a truthy volunteer identifier, then update every
matching shift of the group in place. -/
def applyHour (n : Nat) (h : Hour) (list : List ShiftStatus) : List ShiftStatus :=
  match hourUserId h with
  | none => list
  | some uid =>
    if uid == 0 then list
    else
      let uobj := h.user.getD {}
      list.map
        (fun s =>
          if inGroup n s && hourMatchesShift h n list s then
            applyHourToShift h uobj uid s
          else s)

/-- The hours fetched for one need (line 1787). -/
def hoursForNeed (dbHours : List Hour) (n : Nat) : List Hour :=
  dbHours.filter (fun h => h.need_id == some n)

/-- Folding a need's hours over the shift list. -/
def applyNeedHours (n : Nat) (hs : List Hour) (list : List ShiftStatus) :
    List ShiftStatus :=
  hs.foldl (fun acc h => applyHour n h acc) list

/-- The distinct truthy `need_id` keys in first-appearance order
(the `shifts_by_need` dict of lines 1774-1781). -/
def needIdsOf (list : List ShiftStatus) : List Nat :=
  list.foldl
    (fun acc s =>
      if s.need_id != 0 && !acc.contains s.need_id then acc ++ [s.need_id]
      else acc)
    []

/-- Final bookkeeping of lines 1994-2001: recompute `slots_filled`
as the non-cancelled user count and backfill a falsy `slots`. -/
def recomputeSlots (s : ShiftStatus) : ShiftStatus :=
  let filled := (s.users.filter (fun u => u.checkin_status != "cancelled")).length
  let s' := { s with slots_filled := filled }
  if s'.slots == 0 then { s' with slots := s'.users.length } else s'

def correlate_hours_to_shifts (dbHours : List Hour) (list : List ShiftStatus) :
    List ShiftStatus :=
  let processed :=
    (needIdsOf list).foldl
      (fun acc n => applyNeedHours n (hoursForNeed dbHours n) acc) list
  processed.map recomputeSlots

/-! ## Shift-status writer (`_save_shift_status_data`, lines 2005-2076)

The derived collection is an association list keyed by the record's
`id` (the writer stores it as the Mongo `_id`).  A per-record storage
failure (`StorageFailure`) is injected through an index oracle: a
failing record raises inside its try-block, leaving the collection
untouched for that record. -/

abbrev DB := List ShiftStatus

/-- `find_one({"_id": k})`. -/
def dbFind (db : DB) (k : MId) : Option ShiftStatus :=
  db.find? (fun r => r.id == k)

/-- Upsert one record: replace the fields of an existing record with
the same key (`update_one` with `$set` of every non-`_id` field), or
append a new record.  Also reports whether an insert happened and
whether an update actually modified the stored document
(`modified_count > 0`). -/
def dbUpsert (db : DB) (s : ShiftStatus) : DB × Bool × Bool :=
  match dbFind db s.id with
  | some old => (db.map (fun r => if r.id == s.id then s else r), false, old != s)
  | none => (db ++ [s], true, false)

structure SaveStats where
  processed : Nat := 0
  updated : Nat := 0
  inserted : Nat := 0
  errors : Nat := 0
deriving DecidableEq, Repr

/-- The per-shift loop of lines 2033-2071, with `i` the running index
into the batch and `fails` the storage-failure oracle. -/
def saveGo (fails : Nat → Bool) (i : Nat) (db : DB) (stats : SaveStats) :
    List ShiftStatus → DB × SaveStats
  | [] => (db, stats)
  | s :: rest =>
    if !s.id.truthy then
      saveGo fails (i + 1) db { stats with errors := stats.errors + 1 } rest
    else if fails i then
      saveGo fails (i + 1) db { stats with errors := stats.errors + 1 } rest
    else
      let r := dbUpsert db s
      saveGo fails (i + 1) r.1
        { stats with
          processed := stats.processed + 1
          inserted := stats.inserted + (if r.2.1 then 1 else 0)
          updated := stats.updated + (if r.2.2 then 1 else 0) }
        rest

def save_shift_status_records (fails : Nat → Bool) (db : DB)
    (shifts : List ShiftStatus) : DB × SaveStats :=
  saveGo fails 0 db {} shifts

/-! ## Orphan time-log synthesizer
(`_process_synthetic_shifts_for_approved_hours`, lines 2078-2280) -/

/-- The `$match` stage of lines 2091-2095: `hour_status` exactly equal
to the lower-case string `"approved"`, with the embedded `need.id` and
`user.id` fields present. -/
def approvedHours (dbHours : List Hour) : List Hour :=
  dbHours.filter
    (fun h =>
      h.hour_status == some "approved" && h.need_id.isSome &&
        (h.user.bind RUser.id).isSome)

/-- One `$group` result keyed by `(need.id, user.id)`. -/
structure Combo where
  need_id : Nat
  user_id : Nat
  user_info : RUser
  need_title : Option String
  hours : List Hour
  min_start : Option Int
  max_end : Option Int
deriving DecidableEq, Repr

/-- Distinct `(need.id, user.id)` keys in first-appearance order. -/
def comboKey (h : Hour) : Nat × Nat :=
  (h.need_id.getD 0, (h.user.bind RUser.id).getD 0)

def comboKeys : List Hour → List (Nat × Nat)
  | [] => []
  | h :: t => comboKey h :: (comboKeys t).filter (fun k => k != comboKey h)

/-- `$min`/`$max` over the exact `hour_date_start` / `hour_date_end`
fields: the extremum of the present values, `none` when all are
missing (Mongo's accumulators ignore missing values). -/
def minField (f : Hour → Option Int) : List Hour → Option Int
  | [] => none
  | h :: t =>
    match f h, minField f t with
    | none, m => m
    | some a, none => some a
    | some a, some b => some (if a < b then a else b)

def maxField (f : Hour → Option Int) : List Hour → Option Int
  | [] => none
  | h :: t =>
    match f h, maxField f t with
    | none, m => m
    | some a, none => some a
    | some a, some b => some (if b < a then a else b)

def combosOf (dbHours : List Hour) : List Combo :=
  let hs := approvedHours dbHours
  (comboKeys hs).map
    (fun k =>
      let group :=
        hs.filter
          (fun h =>
            h.need_id == some k.1 && (h.user.bind RUser.id) == some k.2)
      { need_id := k.1
        user_id := k.2
        user_info := (group.head?.bind Hour.user).getD {}
        need_title := group.head?.bind Hour.need_title
        hours := group
        min_start := minField Hour.hour_date_start group
        max_end := maxField Hour.hour_date_end group })

/-- The duplicate-synthesis guard of lines 2133-2141: a persisted
record for the need that contains the volunteer somewhere in its users
array and contains a completed entry somewhere in its users array
(two independent array predicates, as the Mongo query states them). -/
def completedQuery (db : DB) (n uid : Nat) : Bool :=
  db.any
    (fun r =>
      r.need_id == n && r.users.any (fun x => x.id == uid) &&
        r.users.any (fun x => x.checkin_status == "completed"))

/-- `f"syn_{need_id}_{user_id}_{hour_id}"` (line 2210). -/
def synShiftId (n u hid : Nat) : MId :=
  MId.str ("syn_" ++ toString n ++ "_" ++ toString u ++ "_" ++ toString hid)

/-- `total_duration` of lines 2161-2180: per-log duration with the
`"0"` default, and the 2.0-hour fallback when the total is zero. -/
def synTotalDuration (hs : List Hour) : Q :=
  let total :=
    hs.foldl (fun acc h => qadd acc ((hourDurationOf h).getD (Q.ofInt 0))) (Q.ofInt 0)
  if qIsZero total then Q.ofInt 2 else total

/-- The forced-complete user entry of lines 2182-2207. -/
def synUserEntry (c : Combo) (hid : Nat) (total : Q) : UserEntry :=
  { id := c.user_id
    domain_id := some (c.user_info.domain_id.getD 0)
    user_fname := some (c.user_info.user_fname.getD "Unknown")
    user_lname := some (c.user_info.user_lname.getD "User")
    user_email :=
      some (c.user_info.user_email.getD ("user_" ++ toString c.user_id ++ "@example.com"))
    checkin_status := "completed"
    hour_id := some hid
    hour_status := some "approved"
    hour_duration := some total
    hour_date_start := c.min_start
    hour_date_end := c.max_end
    checkout_status := some "manager_approved"
    has_checkin := some true
    has_checkout := some true
    has_manager_approval := some true
    has_kiosk_activity := some false }

/-- Title fallback chain of lines 2211-2221. -/
def synTitleFor (needs : List Need) (c : Combo) : String :=
  let t0 := c.need_title.getD ""
  if t0 != "" then t0
  else
    match needs.find? (fun nd => nd.id == some c.need_id) with
    | some nd =>
      match nd.need_title with
      | some t => if t != "" then t else "Need " ++ toString c.need_id
      | none => "Need " ++ toString c.need_id
    | none => "Need " ++ toString c.need_id

/-- Construction of one synthetic shift from a combo (lines 2143-2239),
without the database-dependent duplicate guard: `none` when a falsy
need/user identifier, an empty group, or a missing first-hour
identifier or window endpoint skips the combo. -/
def synShiftFor (needs : List Need) (syncTime : Int) (c : Combo) :
    Option ShiftStatus :=
  if c.need_id == 0 || c.user_id == 0 then none
  else
    match c.hours with
    | [] => none
    | h0 :: _ =>
      match h0.id, c.min_start, c.max_end with
      | some hid, some st, some en =>
        if hid == 0 then none
        else
          let total := synTotalDuration c.hours
          some
            { id := synShiftId c.need_id c.user_id hid
              start := some st
              «end» := some en
              duration := some total
              slots := 1
              need_id := c.need_id
              title := some (synTitleFor needs c)
              users := [synUserEntry c hid total]
              slots_filled := 1
              synced_at := syncTime
              sync_source := "synthetic" }
      | _, _, _ => none

/-- The collection phase of the synthesizer: every combo that passes
the falsy-identifier check and is not already represented by the
duplicate guard against the *current* collection contributes one
synthetic shift (the guard runs before any synthetic upsert). -/
def syntheticShiftsFor (needs : List Need) (dbHours : List Hour)
    (syncTime : Int) (db : DB) : List ShiftStatus :=
  (combosOf dbHours).filterMap
    (fun c =>
      if c.need_id == 0 || c.user_id == 0 then none
      else if completedQuery db c.need_id c.user_id then none
      else synShiftFor needs syncTime c)

/-- The upsert phase of lines 2244-2277 (its own counters; no
missing-identifier branch). -/
def synGo (db : DB) (stats : SaveStats) : List ShiftStatus → DB × SaveStats
  | [] => (db, stats)
  | s :: rest =>
    let r := dbUpsert db s
    synGo r.1
      { stats with
        inserted := stats.inserted + (if r.2.1 then 1 else 0)
        updated := stats.updated + (if r.2.2 then 1 else 0) }
      rest

def upsertSynShifts (db : DB) (ss : List ShiftStatus) : DB × SaveStats :=
  synGo db {} ss

def process_synthetic_shifts_for_approved_hours (needs : List Need)
    (dbHours : List Hour) (syncTime : Int) (db : DB) : DB × SaveStats :=
  upsertSynShifts db (syntheticShiftsFor needs dbHours syncTime db)

/-! ## The reconciliation pass (`_generate_shift_status`, lines 917-970,
plus `_save_shift_status_data`'s batch framing, lines 2015-2076) -/

structure RunResult where
  db : DB
  saveStats : SaveStats
  synStats : SaveStats
deriving DecidableEq, Repr

/-- The in-memory batch of one pass: extract, bind signups, correlate
hours (lines 950-957). -/
def regularBatch (futureOnly : Bool) (now : Int) (needs : List Need)
    (responses : List Response) (dbHours : List Hour) : List ShiftStatus :=
  correlate_hours_to_shifts dbHours
    (assign_users_from_responses responses
      (create_shifts_from_needs futureOnly now needs dbHours))

/-- One full pass: build the batch, then write.  An empty batch returns
early (before the fresh-mode wipe and before the synthesizer);
otherwise the batch is upserted record by record and the orphan
synthesizer runs against the updated collection. -/
def generate_shift_status (freshData futureOnly : Bool) (now : Int)
    (needs : List Need) (responses : List Response) (dbHours : List Hour)
    (db : DB) : RunResult :=
  let list2 := regularBatch futureOnly now needs responses dbHours
  if list2.isEmpty then { db := db, saveStats := {}, synStats := {} }
  else
    let dbStart := if freshData then [] else db
    let p1 := save_shift_status_records (fun _ => false) dbStart list2
    let p2 := process_synthetic_shifts_for_approved_hours needs dbHours now p1.1
    { db := p2.1, saveStats := p1.2, synStats := p2.2 }

/-! ## Specification-side helpers

`lastOcc` is the last record in a batch carrying a given key — the
content that a sequence of upserts leaves at that key — and `okFrom`
is the sub-batch that the writer's per-record loop actually stores
(truthy identifier, no storage failure), starting at index `i`. -/

def lastOcc : List ShiftStatus → MId → Option ShiftStatus
  | [], _ => none
  | s :: t, k => oor (lastOcc t k) (if s.id == k then some s else none)

def okFrom (fails : Nat → Bool) (i : Nat) : List ShiftStatus → List ShiftStatus
  | [] => []
  | s :: rest =>
    if s.id.truthy && !fails i then s :: okFrom fails (i + 1) rest
    else okFrom fails (i + 1) rest

/-- Distinct storage keys. -/
def nodupKeys (db : DB) : Prop := (db.map ShiftStatus.id).Nodup

/-! ## Concrete documents used by counterexamples and witnesses -/

/-- A need with two shifts over the same window. -/
def needTwoShifts : Need :=
  { id := some 1
    need_title := some "T"
    shifts := [ { id := some (MId.num 10), start := some 100, «end» := some 200, slots := some 3 },
                { id := some (MId.num 11), start := some 100, «end» := some 200, slots := some 3 } ] }

/-- An upstream-cased approved log for volunteer 5 filling that window. -/
def hourApprovedUpper : Hour :=
  { id := some 7
    user := some { id := some 5 }
    need_id := some 1
    hour_date_start := some 100
    hour_date_end := some 200
    hour_status := some "Approved" }

/-- A single-shift need for the recency counterexample. -/
def needOneShift : Need :=
  { id := some 2
    shifts := [ { id := some (MId.num 20), start := some 100, «end» := some 200, slots := some 1 } ] }

/-- The more recently created of two matching logs (approved). -/
def hourNewer : Hour :=
  { id := some 77
    user := some { id := some 5 }
    need_id := some 2
    hour_date_start := some 100
    hour_date_end := some 200
    hour_status := some "approved"
    hour_date_created := some 2000
    hour_date_updated := some 2000 }

/-- The older of the two matching logs (still pending, untouched). -/
def hourOlder : Hour :=
  { id := some 99
    user := some { id := some 5 }
    need_id := some 2
    hour_date_start := some 100
    hour_date_end := some 200
    hour_status := some "pending"
    hour_date_created := some 1000
    hour_date_updated := some 1000 }

/-- A need holding one past and one future shift. -/
def needMixedShifts : Need :=
  { id := some 3
    shifts := [ { id := some (MId.num 30), start := some 100, «end» := some 200 },
                { id := some (MId.num 31), start := some 5000, «end» := some 6000 } ] }

/-- The allow-listed need without a shifts array (date-field fallback). -/
def needProblematic : Need :=
  { id := some 800197
    need_date_start := some 0
    need_date_end := some 100 }

/-- A log under the allow-listed need whose identifier becomes the
synthesized day-shift's identifier. -/
def hourForDaySynthesis : Hour :=
  { id := some 42
    need_id := some 800197
    hour_date_start := some 10
    hour_date_end := some 20
    hour_duration := some (Q.ofInt 1) }

/-- An ordinary need carrying a real shift with the same identifier 42. -/
def needRealShift42 : Need :=
  { id := some 4
    shifts := [ { id := some (MId.num 42), start := some 10, «end» := some 20 } ] }

/-- The bare record the extractor derives from `needW`'s single shift. -/
def shiftW : ShiftStatus :=
  { id := MId.num 60
    start := some 100
    «end» := some 200
    slots := 1
    need_id := 6
    slots_filled := 0
    synced_at := 0 }

/-- The bare record the extractor derives from `needOneShift`'s shift. -/
def shiftC5 : ShiftStatus :=
  { id := MId.num 20
    start := some 100
    «end» := some 200
    slots := 1
    need_id := 2
    slots_filled := 0
    synced_at := 0 }

/-- A need whose one shift does not overlap the approved log below. -/
def needW : Need :=
  { id := some 6
    shifts := [ { id := some (MId.num 60), start := some 100, «end» := some 200, slots := some 1 } ] }

/-- An exactly-lower-case approved log that no shift window claims. -/
def hourW : Hour :=
  { id := some 9
    user := some { id := some 5 }
    need_id := some 6
    hour_date_start := some 100000
    hour_date_end := some 100100
    hour_status := some "approved" }

/-- An active signup for volunteer 8 on the shift above. -/
def respW : Response :=
  { user := some { id := some 8 }
    need_id := some 6
    shift_id := some (MId.num 60)
    response_status := some "Active" }

/-- The identity fields of an in-memory record that the correlator's
matching reads and never rewrites. -/
def idFields (s : ShiftStatus) : MId × Option Int × Option Int × Nat :=
  (s.id, s.start, s.«end», s.need_id)

/-- Whether one hour is applied to one candidate shift of a group for a
given volunteer: a truthy matching volunteer identifier, group
membership, and a positive matching decision against the group. -/
def relevantHour (n : Nat) (list0 : List ShiftStatus) (uid : Nat)
    (s : ShiftStatus) (h : Hour) : Bool :=
  (hourUserId h == some uid) && (uid != 0) && inGroup n s
    && hourMatchesShift h n list0 s

/-! ## Lemmas about the store layer -/

@[simp] theorem oor_some {α : Type} (a : α) (b : Option α) : oor (some a) b = some a := rfl

@[simp] theorem oor_none {α : Type} (b : Option α) : oor none b = b := rfl

theorem oor_isSome_right {α : Type} {a b : Option α} (h : b.isSome) :
    (oor a b).isSome := by
  cases a <;> simp [oor, h]

@[simp] theorem dbFind_nil (k : MId) : dbFind [] k = none := rfl

@[simp] theorem dbFind_cons (r : ShiftStatus) (db : DB) (k : MId) :
    dbFind (r :: db) k = if r.id == k then some r else dbFind db k := by
  by_cases h : r.id == k <;> simp [dbFind, List.find?_cons, h]

theorem dbFind_append_single (db : DB) (s : ShiftStatus) (k : MId) :
    dbFind (db ++ [s]) k = oor (dbFind db k) (if s.id == k then some s else none) := by
  induction db with
  | nil =>
    by_cases h : s.id == k <;> simp [h]
  | cons r t ih =>
    by_cases h : r.id == k <;> simp [h, ih]

theorem dbFind_replace (db : DB) (s : ShiftStatus) (k : MId) :
    dbFind (db.map (fun r => if r.id == s.id then s else r)) k
      = if s.id == k then (dbFind db s.id).map (fun _ => s) else dbFind db k := by
  induction db with
  | nil => by_cases h : s.id == k <;> simp [h]
  | cons r t ih =>
    simp only [List.map_cons, dbFind_cons]
    by_cases hr : r.id == s.id
    · have hr' : r.id = s.id := by simpa using hr
      by_cases hk : s.id == k
      · have hk' : s.id = k := by simpa using hk
        simp [hr, hk, hr', hk']
      · have hrk : (r.id == k) = false := by
          rw [hr']; simpa using hk
        simp [hr, hk, hrk]
        simpa [hk] using ih
    · have hr'' : ¬ r.id = s.id := by simpa using hr
      by_cases hrk : r.id == k
      · have hrk' : r.id = k := by simpa using hrk
        have hsk : (s.id == k) = false := by
          simp only [beq_eq_false_iff_ne]
          intro hcontra
          exact hr'' (by rw [hrk', hcontra])
        simp [hr, hrk, hsk]
      · simp [hr, hrk]
        simpa using ih

theorem dbFind_upsert (db : DB) (s : ShiftStatus) (k : MId) :
    dbFind (dbUpsert db s).1 k = if s.id == k then some s else dbFind db k := by
  unfold dbUpsert
  cases hfind : dbFind db s.id with
  | some old =>
    simp only [hfind]
    rw [dbFind_replace]
    by_cases hk : s.id == k <;> simp [hk, hfind]
  | none =>
    simp only [hfind]
    rw [dbFind_append_single]
    by_cases hk : s.id == k
    · have hk' : s.id = k := by simpa using hk
      rw [← hk']
      simp [hk, hfind]
    · simp [hk]
      cases dbFind db k <;> simp [oor]

theorem dbFind_isSome_upsert (db : DB) (s : ShiftStatus) (k : MId)
    (h : (dbFind db k).isSome) : (dbFind (dbUpsert db s).1 k).isSome := by
  rw [dbFind_upsert]
  by_cases hk : s.id == k <;> simp [hk, h]

theorem dbUpsert_length (db : DB) (s : ShiftStatus) :
    (dbUpsert db s).1.length = db.length + (if (dbUpsert db s).2.1 then 1 else 0) := by
  unfold dbUpsert
  cases hfind : dbFind db s.id <;> simp

theorem mem_dbUpsert (db : DB) (s : ShiftStatus) (r : ShiftStatus)
    (h : r ∈ (dbUpsert db s).1) : r ∈ db ∨ r = s := by
  unfold dbUpsert at h
  cases hfind : dbFind db s.id with
  | some old =>
    rw [hfind] at h
    simp only [List.mem_map] at h
    obtain ⟨x, hx, hxr⟩ := h
    by_cases hxe : x.id == s.id
    · right; rw [← hxr]; simp [hxe]
    · left
      rw [← hxr]
      have hxe' : ¬ x.id = s.id := by simpa using hxe
      simp [hxe']
      exact hx
  | none =>
    rw [hfind] at h
    rcases List.mem_append.mp h with h' | h'
    · exact Or.inl h'
    · exact Or.inr (by simpa using h')

theorem nodupKeys_dbUpsert (db : DB) (s : ShiftStatus) (h : nodupKeys db) :
    nodupKeys (dbUpsert db s).1 := by
  unfold dbUpsert
  cases hfind : dbFind db s.id with
  | some old =>
    simp only [nodupKeys, List.map_map]
    have hmap : db.map (ShiftStatus.id ∘ fun r => if r.id == s.id then s else r)
        = db.map ShiftStatus.id := by
      apply List.map_congr_left
      intro r _
      by_cases hr : r.id == s.id
      · have hr' : r.id = s.id := by simpa using hr
        simp [Function.comp, hr, hr']
      · simp [Function.comp, hr]
    rw [hmap]
    exact h
  | none =>
    have hnot : ∀ r ∈ db, ¬ (r.id == s.id) = true := List.find?_eq_none.mp hfind
    simp only [nodupKeys, List.map_append, List.map_cons, List.map_nil]
    rw [List.nodup_append]
    refine ⟨h, List.nodup_singleton _, ?_⟩
    intro a ha hb
    simp only [List.mem_singleton] at hb
    subst hb
    simp only [List.mem_map] at ha
    obtain ⟨r, hr, hra⟩ := ha
    exact hnot r hr (by simp [hra])

theorem mem_of_dbFind_eq_some {db : DB} {k : MId} {r : ShiftStatus}
    (h : dbFind db k = some r) : r ∈ db :=
  List.mem_of_find?_eq_some h

theorem dbFind_of_mem_nodup {db : DB} {r : ShiftStatus} (hmem : r ∈ db)
    (hnd : nodupKeys db) : dbFind db r.id = some r := by
  induction db with
  | nil => cases hmem
  | cons x t ih =>
    rcases List.mem_cons.mp hmem with hx | ht
    · subst hx; simp
    · have hnd' : nodupKeys t := by
        simp only [nodupKeys, List.map_cons] at hnd
        exact hnd.of_cons
      have hxr : ¬ (x.id == r.id) = true := by
        simp only [nodupKeys, List.map_cons, List.nodup_cons] at hnd
        intro hcontra
        have : x.id ∈ t.map ShiftStatus.id :=
          List.mem_map.mpr ⟨r, ht, by simpa using (beq_iff_eq.mp hcontra).symm⟩
        exact hnd.1 this
      simp [hxr, ih ht hnd']

/-! ## Lemmas about `lastOcc` and `okFrom` -/

theorem lastOcc_eq_some {L : List ShiftStatus} {k : MId} {s : ShiftStatus}
    (h : lastOcc L k = some s) : s ∈ L ∧ s.id = k := by
  induction L with
  | nil => cases h
  | cons t rest ih =>
    simp only [lastOcc] at h
    cases hrest : lastOcc rest k with
    | some s' =>
      rw [hrest] at h
      simp only [oor_some, Option.some.injEq] at h
      subst h
      exact ⟨List.mem_cons_of_mem _ (ih hrest).1, (ih hrest).2⟩
    | none =>
      rw [hrest] at h
      simp only [oor_none] at h
      by_cases ht : t.id == k
      · rw [if_pos ht] at h
        cases h
        exact ⟨List.mem_cons_self _ _, by simpa using ht⟩
      · rw [if_neg ht] at h
        cases h

theorem lastOcc_isSome_of_mem {L : List ShiftStatus} {s : ShiftStatus}
    (h : s ∈ L) : (lastOcc L s.id).isSome := by
  induction L with
  | nil => cases h
  | cons t rest ih =>
    simp only [lastOcc]
    rcases List.mem_cons.mp h with hx | ht
    · subst hx
      cases hrest : lastOcc rest s.id with
      | some s' => simp
      | none => simp
    · cases hlo : lastOcc rest s.id with
      | some s' => simp [hlo]
      | none => exact absurd (ih ht) (by simp [hlo])

theorem lastOcc_eq_none_of_forall {L : List ShiftStatus} {k : MId}
    (h : ∀ t ∈ L, ¬ t.id = k) : lastOcc L k = none := by
  induction L with
  | nil => rfl
  | cons t rest ih =>
    simp only [lastOcc]
    rw [ih (fun x hx => h x (List.mem_cons_of_mem _ hx))]
    rw [if_neg (by simpa using h t (List.mem_cons_self _ _))]
    rfl

theorem lastOcc_of_mem_nodup {L : List ShiftStatus} {s : ShiftStatus}
    (hmem : s ∈ L) (hnd : (L.map ShiftStatus.id).Nodup) : lastOcc L s.id = some s := by
  induction L with
  | nil => cases hmem
  | cons t rest ih =>
    simp only [List.map_cons, List.nodup_cons] at hnd
    rcases List.mem_cons.mp hmem with hx | hrest
    · subst hx
      have : lastOcc rest s.id = none := by
        apply lastOcc_eq_none_of_forall
        intro x hx hcontra
        exact hnd.1 (List.mem_map.mpr ⟨x, hx, hcontra⟩)
      simp [lastOcc, this]
    · simp only [lastOcc, ih hrest hnd.2]
      rfl

theorem okFrom_subset {fails : Nat → Bool} {L : List ShiftStatus} :
    ∀ {i : Nat} {s : ShiftStatus}, s ∈ okFrom fails i L → s ∈ L := by
  induction L with
  | nil => intro i s h; cases h
  | cons t rest ih =>
    intro i s h
    simp only [okFrom] at h
    by_cases hc : t.id.truthy && !fails i
    · rw [if_pos hc] at h
      rcases List.mem_cons.mp h with hx | hr
      · exact hx ▸ List.mem_cons_self _ _
      · exact List.mem_cons_of_mem _ (ih hr)
    · rw [if_neg hc] at h
      exact List.mem_cons_of_mem _ (ih h)

theorem okFrom_length_le {fails : Nat → Bool} {L : List ShiftStatus} :
    ∀ {i : Nat}, (okFrom fails i L).length ≤ L.length := by
  induction L with
  | nil => intro i; simp [okFrom]
  | cons t rest ih =>
    intro i
    simp only [okFrom]
    by_cases hc : t.id.truthy && !fails i
    · rw [if_pos hc]
      simpa using Nat.succ_le_succ ih
    · rw [if_neg hc]
      exact Nat.le_succ_of_le ih

theorem mem_okFrom_noFail {L : List ShiftStatus} {s : ShiftStatus}
    (hmem : s ∈ L) (ht : s.id.truthy) :
    ∀ {i : Nat}, s ∈ okFrom (fun _ => false) i L := by
  induction L with
  | nil => cases hmem
  | cons t rest ih =>
    intro i
    simp only [okFrom, Bool.not_false, Bool.and_true]
    rcases List.mem_cons.mp hmem with hx | hrest
    · subst hx
      rw [if_pos ht]
      exact List.mem_cons_self _ _
    · by_cases htr : t.id.truthy
      · rw [if_pos htr]
        exact List.mem_cons_of_mem _ (ih hrest)
      · rw [if_neg htr]
        exact ih hrest

/-! ## Lemmas about the writer loop -/

theorem saveGo_db_find (fails : Nat → Bool) (L : List ShiftStatus) :
    ∀ (i : Nat) (db : DB) (stats : SaveStats) (k : MId),
      dbFind (saveGo fails i db stats L).1 k
        = oor (lastOcc (okFrom fails i L) k) (dbFind db k) := by
  induction L with
  | nil => intro i db stats k; simp [saveGo, okFrom, lastOcc]
  | cons s rest ih =>
    intro i db stats k
    by_cases h1 : s.id.truthy
    · by_cases h2 : fails i
      · simp [saveGo, okFrom, h1, h2, ih]
      · simp only [saveGo, okFrom, h1, h2, Bool.not_true, Bool.false_eq_true,
          if_false, Bool.and_true, Bool.not_false, Bool.true_and, if_true, ih,
          lastOcc, dbFind_upsert]
        cases lastOcc (okFrom fails (i + 1) rest) k with
        | some a => simp
        | none =>
          by_cases hk : s.id == k <;> simp [hk]
    · simp [saveGo, okFrom, h1, ih]

theorem saveGo_processed (fails : Nat → Bool) (L : List ShiftStatus) :
    ∀ (i : Nat) (db : DB) (stats : SaveStats),
      (saveGo fails i db stats L).2.processed
        = stats.processed + (okFrom fails i L).length := by
  induction L with
  | nil => intro i db stats; simp [saveGo, okFrom]
  | cons s rest ih =>
    intro i db stats
    by_cases h1 : s.id.truthy
    · by_cases h2 : fails i
      · simp [saveGo, okFrom, h1, h2, ih] <;> omega
      · simp [saveGo, okFrom, h1, h2, ih] <;> omega
    · simp [saveGo, okFrom, h1, ih] <;> omega

theorem saveGo_errors (fails : Nat → Bool) (L : List ShiftStatus) :
    ∀ (i : Nat) (db : DB) (stats : SaveStats),
      (saveGo fails i db stats L).2.errors
        = stats.errors + (L.length - (okFrom fails i L).length) := by
  induction L with
  | nil => intro i db stats; simp [saveGo, okFrom]
  | cons s rest ih =>
    intro i db stats
    have hle : (okFrom fails (i + 1) rest).length ≤ rest.length := okFrom_length_le
    by_cases h1 : s.id.truthy
    · by_cases h2 : fails i
      · simp [saveGo, okFrom, h1, h2, ih] <;> omega
      · simp [saveGo, okFrom, h1, h2, ih] <;> omega
    · simp [saveGo, okFrom, h1, ih] <;> omega

theorem saveGo_inserted (fails : Nat → Bool) (L : List ShiftStatus) :
    ∀ (i : Nat) (db : DB) (stats : SaveStats),
      (saveGo fails i db stats L).1.length + stats.inserted
        = db.length + (saveGo fails i db stats L).2.inserted := by
  induction L with
  | nil => intro i db stats; simp [saveGo]
  | cons s rest ih =>
    intro i db stats
    by_cases h1 : s.id.truthy
    · by_cases h2 : fails i
      · simpa [saveGo, h1, h2] using ih (i + 1) db
          { stats with errors := stats.errors + 1 }
      · have hup := dbUpsert_length db s
        have hih := ih (i + 1) (dbUpsert db s).1
          { stats with
            processed := stats.processed + 1
            inserted := stats.inserted + (if (dbUpsert db s).2.1 then 1 else 0)
            updated := stats.updated + (if (dbUpsert db s).2.2 then 1 else 0) }
        simp only [saveGo, h1, h2, Bool.not_true, Bool.false_eq_true, if_false,
          if_true] at hih ⊢
        omega
    · simpa [saveGo, h1] using ih (i + 1) db
        { stats with errors := stats.errors + 1 }

theorem saveGo_inserted_zero (fails : Nat → Bool) (L : List ShiftStatus) :
    ∀ (i : Nat) (db : DB) (stats : SaveStats),
      (∀ s ∈ L, s.id.truthy → (dbFind db s.id).isSome) →
      (saveGo fails i db stats L).2.inserted = stats.inserted := by
  induction L with
  | nil => intro i db stats _; simp [saveGo]
  | cons s rest ih =>
    intro i db stats hkeys
    by_cases h1 : s.id.truthy
    · by_cases h2 : fails i
      · simp only [saveGo, h1, h2, Bool.not_true, Bool.false_eq_true, if_false, if_true]
        exact ih (i + 1) db _ (fun t ht htr => hkeys t (List.mem_cons_of_mem _ ht) htr)
      · have hsome : (dbFind db s.id).isSome := hkeys s (List.mem_cons_self _ _) h1
        have hins : (dbUpsert db s).2.1 = false := by
          unfold dbUpsert
          cases hfind : dbFind db s.id with
          | some old => simp
          | none => rw [hfind] at hsome; simp at hsome
        simp only [saveGo, h1, h2, Bool.not_true, Bool.false_eq_true, if_false, if_true]
        rw [ih (i + 1) (dbUpsert db s).1 _
          (fun t ht htr => dbFind_isSome_upsert _ _ _ (hkeys t (List.mem_cons_of_mem _ ht) htr))]
        simp [hins]
    · simp only [saveGo, h1, Bool.not_false, if_true]
      exact ih (i + 1) db _ (fun t ht htr => hkeys t (List.mem_cons_of_mem _ ht) htr)

theorem mem_saveGo (fails : Nat → Bool) (L : List ShiftStatus) :
    ∀ (i : Nat) (db : DB) (stats : SaveStats) (r : ShiftStatus),
      r ∈ (saveGo fails i db stats L).1 → r ∈ db ∨ r ∈ L := by
  induction L with
  | nil => intro i db stats r h; exact Or.inl (by simpa [saveGo] using h)
  | cons s rest ih =>
    intro i db stats r h
    by_cases h1 : s.id.truthy
    · by_cases h2 : fails i
      · simp only [saveGo, h1, h2, Bool.not_true, Bool.false_eq_true, if_false, if_true] at h
        rcases ih (i + 1) db _ r h with h' | h'
        · exact Or.inl h'
        · exact Or.inr (List.mem_cons_of_mem _ h')
      · simp only [saveGo, h1, h2, Bool.not_true, Bool.false_eq_true, if_false, if_true] at h
        rcases ih (i + 1) (dbUpsert db s).1 _ r h with h' | h'
        · rcases mem_dbUpsert db s r h' with h'' | h''
          · exact Or.inl h''
          · exact Or.inr (h'' ▸ List.mem_cons_self _ _)
        · exact Or.inr (List.mem_cons_of_mem _ h')
    · simp only [saveGo, h1, Bool.not_false, if_true] at h
      rcases ih (i + 1) db _ r h with h' | h'
      · exact Or.inl h'
      · exact Or.inr (List.mem_cons_of_mem _ h')

theorem nodupKeys_saveGo (fails : Nat → Bool) (L : List ShiftStatus) :
    ∀ (i : Nat) (db : DB) (stats : SaveStats),
      nodupKeys db → nodupKeys (saveGo fails i db stats L).1 := by
  induction L with
  | nil => intro i db stats h; simpa [saveGo] using h
  | cons s rest ih =>
    intro i db stats h
    by_cases h1 : s.id.truthy
    · by_cases h2 : fails i
      · simp only [saveGo, h1, h2, Bool.not_true, Bool.false_eq_true, if_false, if_true]
        exact ih (i + 1) db _ h
      · simp only [saveGo, h1, h2, Bool.not_true, Bool.false_eq_true, if_false, if_true]
        exact ih (i + 1) (dbUpsert db s).1 _ (nodupKeys_dbUpsert db s h)
    · simp only [saveGo, h1, Bool.not_false, if_true]
      exact ih (i + 1) db _ h

/-! ## Lemmas about the synthetic upsert loop -/

theorem synGo_db_find (ss : List ShiftStatus) :
    ∀ (db : DB) (stats : SaveStats) (k : MId),
      dbFind (synGo db stats ss).1 k = oor (lastOcc ss k) (dbFind db k) := by
  induction ss with
  | nil => intro db stats k; simp [synGo, lastOcc]
  | cons s rest ih =>
    intro db stats k
    simp only [synGo, lastOcc, ih, dbFind_upsert]
    cases lastOcc rest k with
    | some a => simp
    | none => by_cases hk : s.id == k <;> simp [hk]

theorem mem_synGo (ss : List ShiftStatus) :
    ∀ (db : DB) (stats : SaveStats) (r : ShiftStatus),
      r ∈ (synGo db stats ss).1 → r ∈ db ∨ r ∈ ss := by
  induction ss with
  | nil => intro db stats r h; exact Or.inl (by simpa [synGo] using h)
  | cons s rest ih =>
    intro db stats r h
    simp only [synGo] at h
    rcases ih (dbUpsert db s).1 _ r h with h' | h'
    · rcases mem_dbUpsert db s r h' with h'' | h''
      · exact Or.inl h''
      · exact Or.inr (h'' ▸ List.mem_cons_self _ _)
    · exact Or.inr (List.mem_cons_of_mem _ h')

theorem nodupKeys_synGo (ss : List ShiftStatus) :
    ∀ (db : DB) (stats : SaveStats), nodupKeys db → nodupKeys (synGo db stats ss).1 := by
  induction ss with
  | nil => intro db stats h; simpa [synGo] using h
  | cons s rest ih =>
    intro db stats h
    simp only [synGo]
    exact ih (dbUpsert db s).1 _ (nodupKeys_dbUpsert db s h)

/-! ## Lemmas about the correlator's bookkeeping and the synthesizer -/

theorem recomputeSlots_filled (s : ShiftStatus) :
    (recomputeSlots s).slots_filled
      = ((recomputeSlots s).users.filter (fun u => u.checkin_status != "cancelled")).length := by
  simp only [recomputeSlots]
  split <;> rfl

theorem mem_correlate {dbHours : List Hour} {list : List ShiftStatus} {r : ShiftStatus}
    (h : r ∈ correlate_hours_to_shifts dbHours list) : ∃ s, r = recomputeSlots s := by
  unfold correlate_hours_to_shifts at h
  obtain ⟨s, _, hs⟩ := List.mem_map.mp h
  exact ⟨s, hs.symm⟩

theorem synShiftFor_spec {needs : List Need} {t : Int} {c : Combo} {r : ShiftStatus}
    (h : synShiftFor needs t c = some r) :
    r.slots_filled = 1
      ∧ r.need_id = c.need_id
      ∧ (∃ e, r.users = [e] ∧ e.checkin_status = "completed" ∧ e.id = c.user_id)
      ∧ ∃ hid, r.id = synShiftId c.need_id c.user_id hid := by
  unfold synShiftFor at h
  by_cases h0 : c.need_id == 0 || c.user_id == 0
  · rw [if_pos h0] at h; cases h
  · rw [if_neg h0] at h
    cases hh : c.hours with
    | nil => rw [hh] at h; cases h
    | cons h0' rest =>
      rw [hh] at h
      cases hid : h0'.id with
      | none => simp [hid] at h
      | some hidv =>
        cases hmn : c.min_start with
        | none => simp [hid, hmn] at h
        | some st =>
          cases hmx : c.max_end with
          | none => simp [hid, hmn, hmx] at h
          | some en =>
            simp only [hid, hmn, hmx] at h
            by_cases hz : hidv == 0
            · rw [if_pos hz] at h; cases h
            · rw [if_neg hz] at h
              cases h
              exact ⟨rfl, rfl, ⟨_, rfl, rfl, rfl⟩, hidv, rfl⟩

theorem mem_syntheticShiftsFor {needs : List Need} {dbHours : List Hour} {t : Int}
    {db : DB} {r : ShiftStatus} (h : r ∈ syntheticShiftsFor needs dbHours t db) :
    ∃ c ∈ combosOf dbHours, synShiftFor needs t c = some r := by
  unfold syntheticShiftsFor at h
  obtain ⟨c, hc, heq⟩ := List.mem_filterMap.mp h
  refine ⟨c, hc, ?_⟩
  by_cases h0 : c.need_id == 0 || c.user_id == 0
  · rw [if_pos h0] at heq; cases heq
  · rw [if_neg h0] at heq
    by_cases hq : completedQuery db c.need_id c.user_id
    · rw [if_pos hq] at heq; cases heq
    · rwa [if_neg hq] at heq

theorem deriveCheckoutStatus_unknown (st : Option String) (f : SourceFlags)
    (hp : ∀ s, st = some s → ¬ lowerStr s = "pending") :
    deriveCheckoutStatus st f = "unknown" := by
  cases st with
  | none => simp [deriveCheckoutStatus, strTruthy]
  | some s =>
    have hps := hp s rfl
    simp [deriveCheckoutStatus, hps]

/-! ## Claim theorems -/

/-- Claim C4: in the state derivation for a volunteer's authoritative log,
the denial rule outranks the duration rule — whenever the log's status
text indicates denial or rejection (the source's own test), the derived
`checkin_status` is `cancelled` for every duration, in particular a
positive one. -/
theorem c4_denial_outranks_duration (st : Option String)
    (created updated : Option Int) (dur : Option Q)
    (h : statusIndicatesDenial st = true) :
    deriveCheckinStatus st created updated dur = "cancelled" := by
  simp [deriveCheckinStatus, h]

/-- Witness for C4: a `"denied"` log with a positive logged duration
still derives `cancelled`. -/
theorem c4_denial_outranks_duration_witness :
    qblt (Q.ofInt 0) (Q.ofInt 5) = true ∧
      deriveCheckinStatus (some "denied") none none (some (Q.ofInt 5)) = "cancelled" :=
  ⟨by decide, c4_denial_outranks_duration (some "denied") none none (some (Q.ofInt 5)) (by decide)⟩

/-- Claim C10: whenever the hour's effective status is not
(case-insensitively) exactly `"pending"` — including a missing status —
the user entry written by the correlator carries
`checkout_status = "unknown"`, regardless of the provenance flags. -/
theorem c10_checkout_unknown (h : Hour) (u : UserEntry)
    (hp : ∀ s, hourStatusOf h = some s → ¬ lowerStr s = "pending") :
    (applyHourToUser h u).checkout_status = some "unknown" := by
  have hder := deriveCheckoutStatus_unknown (hourStatusOf h)
    (classifySource (h.hour_source.getD "")) hp
  simp only [applyHourToUser]
  split
  · simp [hder]
  · split <;> simp [hder]

/-- Witness for C10: an approved log whose source string sets all four
provenance flags still gets `checkout_status = "unknown"`. -/
theorem c10_checkout_unknown_witness :
    (applyHourToUser
        { id := some 1
          user := some { id := some 5 }
          hour_status := some "Approved"
          hour_source := some "/kiosk/storeCheckin/ /kiosk/storeCheckout/ by manager approved" }
        (baseUserFromHour {} 5)).checkout_status = some "unknown" :=
  c10_checkout_unknown _ _ (by decide)

/-- Claim C9: the writer never aborts the batch — every record with a
truthy identifier and no storage failure is processed even when earlier
records fail; a missing identifier or a storage failure only increments
the error counter; the surviving records are upserted in order
(update-in-place on an existing key, append on a fresh one, so the final
content at a key is the last surviving occurrence and the insert counter
is exactly the collection growth); processed/updated/inserted/error
counters are returned. -/
theorem c9_writer_batch (fails : Nat → Bool) (db : DB) (shifts : List ShiftStatus) :
    (save_shift_status_records fails db shifts).2.processed
        = (okFrom fails 0 shifts).length
      ∧ (save_shift_status_records fails db shifts).2.errors
        = shifts.length - (okFrom fails 0 shifts).length
      ∧ (save_shift_status_records fails db shifts).1.length
        = db.length + (save_shift_status_records fails db shifts).2.inserted
      ∧ ∀ k, dbFind (save_shift_status_records fails db shifts).1 k
        = oor (lastOcc (okFrom fails 0 shifts) k) (dbFind db k) := by
  refine ⟨?_, ?_, ?_, ?_⟩
  · simpa [save_shift_status_records] using saveGo_processed fails shifts 0 db {}
  · simpa [save_shift_status_records] using saveGo_errors fails shifts 0 db {}
  · have h := saveGo_inserted fails shifts 0 db {}
    simp only [save_shift_status_records] at *
    omega
  · intro k
    simpa [save_shift_status_records] using saveGo_db_find fails shifts 0 db {} k

/-- Claim C7 [the code contradicts the claim and its own docstring]:
with `future_only` set and `now = 1000`, a need holding one future
shift (start 5000) and one past shift (start 100) passes the need-level
`shifts.start >= now` filter, and *both* its shifts are emitted — the
extractor filters needs, not shifts, so a shift starting before `now`
is emitted. -/
theorem c7_future_only_failing :
    (create_shifts_from_needs true 1000 [needMixedShifts] []).map
        (fun s => (s.id, s.start))
      = [(MId.num 30, some 100), (MId.num 31, some 5000)]
    ∧ ((create_shifts_from_needs true 1000 [needMixedShifts] []).any
        (fun s =>
          match s.start with
          | some t => t < 1000
          | none => false)) = true := by
  constructor
  · decide
  · decide

/-- Counterexample to claim C8: the extractor's day-synthesis path for
the allow-listed need reuses the first hour's *numeric* identifier as
the synthesized shift's persisted identifier — it is not namespaced
with the `syn_` prefix — and an ordinary need can carry a real shift
with that same identifier, so the two persisted identifiers coincide. -/
theorem c8_namespacing_counterexample :
    (create_shifts_from_needs false 0 [needProblematic] [hourForDaySynthesis]).map
        ShiftStatus.id = [MId.num 42]
      ∧ (create_shifts_from_needs false 0 [needRealShift42] []).map
        ShiftStatus.id = [MId.num 42] := by
  constructor
  · decide
  · decide

/-- Amended claim C8: shifts fabricated by the *orphan time-log
synthesizer* are namespaced `syn_<need>_<volunteer>_<log>`, and such a
string identifier can never equal a numeric real-shift identifier; the
day-synthesis shifts of the extractor's allow-list path, by contrast,
reuse raw hour identifiers and are not namespaced. -/
theorem c8_amended_namespacing (needs : List Need) (dbHours : List Hour)
    (t : Int) (db : DB) (r : ShiftStatus)
    (h : r ∈ syntheticShiftsFor needs dbHours t db) :
    (∃ n u hid, r.id = synShiftId n u hid) ∧ ∀ m : Nat, r.id ≠ MId.num m := by
  obtain ⟨c, _, hsyn⟩ := mem_syntheticShiftsFor h
  obtain ⟨_, _, _, hid, hideq⟩ := synShiftFor_spec hsyn
  refine ⟨⟨c.need_id, c.user_id, hid, hideq⟩, ?_⟩
  intro m hcontra
  rw [hideq] at hcontra
  cases hcontra

/-- Witness for C8's amended claim, on a concrete orphan-synthesized
shift. -/
theorem c8_amended_namespacing_witness :
    (∃ n u hid,
        ((syntheticShiftsFor [needW] [hourW] 0 []).head?.getD
            { id := MId.num 0 }).id = synShiftId n u hid)
      ∧ ∀ m : Nat,
        ((syntheticShiftsFor [needW] [hourW] 0 []).head?.getD
            { id := MId.num 0 }).id ≠ MId.num m :=
  c8_amended_namespacing [needW] [hourW] 0 [] _ (by decide)

/-- Counterexample to claim C2: one approved log (upstream-cased status
`"Approved"`) matches the two identical windows of its need, and the
correlator applies it to each matching shift, so after the run the
derived collection holds *two* records whose users list marks the same
(need 1, volunteer 5) pair `completed` — not exactly one. -/
theorem c2_exactly_one_counterexample :
    ((generate_shift_status false false 0 [needTwoShifts] [] [hourApprovedUpper] []).db.filter
        (fun r =>
          r.need_id == 1 &&
            r.users.any (fun u => u.id == 5 && u.checkin_status == "completed"))).length
      = 2 := by
  decide

/-- Counterexample to claim C5: two logs of volunteer 5 match the one
shift; `hourNewer` (creation stamp 2000, approved) is the most recently
created, `hourOlder` (creation stamp 1000, still pending) the older.
The correlator of `galaxy_api_sync.py` performs no recency selection —
each matching log is applied in collection iteration order and the last
one wins — so the persisted entry carries the *older* log (`hour_id`
99) and its derived state `active`, not the newer log's `completed`. -/
theorem c5_recency_counterexample :
    (correlate_hours_to_shifts [hourNewer, hourOlder]
        (create_shifts_from_needs false 0 [needOneShift] [])).map
      (fun s => s.users.map (fun u => (u.id, u.checkin_status, u.hour_id)))
      = [[(5, "active", some 99)]] := by
  decide

/-- Claim C1: every record persisted by a reconciliation run into an
initially empty derived collection — written from the correlated batch
or fabricated by the orphan synthesizer — carries
`slots_filled` equal to the number of its users whose `checkin_status`
is not `cancelled`. -/
theorem c1_slots_filled_invariant (freshData futureOnly : Bool) (now : Int)
    (needs : List Need) (responses : List Response) (dbHours : List Hour)
    (r : ShiftStatus)
    (hmem : r ∈ (generate_shift_status freshData futureOnly now needs responses dbHours []).db) :
    r.slots_filled
      = (r.users.filter (fun u => u.checkin_status != "cancelled")).length := by
  simp only [generate_shift_status] at hmem
  by_cases he : (regularBatch futureOnly now needs responses dbHours).isEmpty
  · rw [if_pos he] at hmem
    simp at hmem
  · rw [if_neg he] at hmem
    simp only [process_synthetic_shifts_for_approved_hours, upsertSynShifts,
      save_shift_status_records] at hmem
    rcases mem_synGo _ _ _ _ hmem with h1 | h1
    · rcases mem_saveGo _ _ _ _ _ _ h1 with h2 | h2
      · rw [ite_self] at h2
        cases h2
      · obtain ⟨s, rfl⟩ := mem_correlate (by simpa [regularBatch] using h2)
        exact recomputeSlots_filled s
    · obtain ⟨c, _, hsyn⟩ := mem_syntheticShiftsFor h1
      obtain ⟨hsf, _, ⟨e, hu, hst, _⟩, _⟩ := synShiftFor_spec hsyn
      rw [hsf, hu]
      simp [hst]

/-- Witness for C1, on a run over one need with one shift and no
signups or logs. -/
theorem c1_slots_filled_invariant_witness :
    ({ id := MId.num 60, start := some 100, «end» := some 200, slots := 1,
        need_id := 6, slots_filled := 0, synced_at := 0 } : ShiftStatus).slots_filled
      = (({ id := MId.num 60, start := some 100, «end» := some 200, slots := 1,
            need_id := 6, slots_filled := 0, synced_at := 0 } : ShiftStatus).users.filter
          (fun u => u.checkin_status != "cancelled")).length :=
  c1_slots_filled_invariant false false 0 [needW] [] [] _ (by decide)

/-! ## Lemmas about the signup binder -/

theorem upgradeAbsent_ids (uid : Nat) (st : String) (l : List UserEntry) :
    (upgradeAbsent uid st l).map UserEntry.id = l.map UserEntry.id := by
  induction l with
  | nil => rfl
  | cons x xs ih =>
    simp only [upgradeAbsent]
    by_cases hx : x.id == uid
    · rw [if_pos hx]
      by_cases hc : st != "absent" && x.checkin_status == "absent"
      · rw [if_pos hc]; simp
      · rw [if_neg hc]
    · rw [if_neg hx]; simp [ih]

theorem mem_upgradeAbsent_of_ne_absent {uid : Nat} {st : String}
    {l : List UserEntry} {e : UserEntry} (hmem : e ∈ l)
    (hne : e.checkin_status ≠ "absent") : e ∈ upgradeAbsent uid st l := by
  induction l with
  | nil => cases hmem
  | cons x xs ih =>
    simp only [upgradeAbsent]
    rcases List.mem_cons.mp hmem with hx | hxs
    · subst hx
      by_cases hid : e.id == uid
      · rw [if_pos hid]
        have hc : (st != "absent" && e.checkin_status == "absent") = false := by
          have : (e.checkin_status == "absent") = false := by simpa using hne
          simp [this]
        rw [if_neg (by simp [hc])]
        exact List.mem_cons_self _ _
      · rw [if_neg hid]
        exact List.mem_cons_self _ _
    · by_cases hid : x.id == uid
      · rw [if_pos hid]
        by_cases hc : st != "absent" && x.checkin_status == "absent"
        · rw [if_pos hc]
          exact List.mem_cons_of_mem _ hxs
        · rw [if_neg hc]
          exact List.mem_cons_of_mem _ hxs
      · rw [if_neg hid]
        exact List.mem_cons_of_mem _ (ih hxs)

theorem mem_upgradeAbsent {uid : Nat} {st : String} {l : List UserEntry}
    {e' : UserEntry} (h : e' ∈ upgradeAbsent uid st l) :
    e' ∈ l ∨ (st ≠ "absent" ∧ ∃ e ∈ l, e.id = uid ∧ e.checkin_status = "absent"
      ∧ e' = { e with checkin_status := st }) := by
  induction l with
  | nil => cases h
  | cons x xs ih =>
    simp only [upgradeAbsent] at h
    by_cases hid : x.id == uid
    · rw [if_pos hid] at h
      by_cases hc : st != "absent" && x.checkin_status == "absent"
      · rw [if_pos hc] at h
        rcases List.mem_cons.mp h with hx | hxs
        · right
          have hst : st ≠ "absent" := by
            have := (Bool.and_eq_true _ _).mp hc
            simpa using this.1
          have hxa : x.checkin_status = "absent" := by
            have := (Bool.and_eq_true _ _).mp hc
            simpa using this.2
          exact ⟨hst, x, List.mem_cons_self _ _, by simpa using hid, hxa, hx⟩
        · exact Or.inl (List.mem_cons_of_mem _ hxs)
      · rw [if_neg hc] at h
        exact Or.inl h
    · rw [if_neg hid] at h
      rcases List.mem_cons.mp h with hx | hxs
      · exact Or.inl (hx ▸ List.mem_cons_self _ _)
      · rcases ih hxs with h' | ⟨hst, e, he, heid, hea, hee⟩
        · exact Or.inl (List.mem_cons_of_mem _ h')
        · exact Or.inr ⟨hst, e, List.mem_cons_of_mem _ he, heid, hea, hee⟩

theorem addResponseToShift_users_nodup {sh : ShiftStatus} {r : Response}
    (h : (sh.users.map UserEntry.id).Nodup) :
    ((addResponseToShift sh r).users.map UserEntry.id).Nodup := by
  unfold addResponseToShift
  split
  · exact h
  · split
    · exact h
    · split
      · exact h
      · dsimp only
        split
        · simpa [upgradeAbsent_ids] using h
        · rename_i hany
          simp only [List.map_append, List.map_cons, List.map_nil]
          rw [List.nodup_append]
          refine ⟨h, List.nodup_singleton _, ?_⟩
          intro a ha hb
          simp only [userEntryFromResponse, List.mem_singleton] at hb
          subst hb
          obtain ⟨e, he, hea⟩ := List.mem_map.mp ha
          exact hany (List.any_eq_true.mpr ⟨e, he, by simp [hea]⟩)

theorem mem_addResponseToShift_of_ne_absent {sh : ShiftStatus} {r : Response}
    {e : UserEntry} (hmem : e ∈ sh.users) (hne : e.checkin_status ≠ "absent") :
    e ∈ (addResponseToShift sh r).users := by
  unfold addResponseToShift
  split
  · exact hmem
  · split
    · exact hmem
    · split
      · exact hmem
      · dsimp only
        split
        · exact mem_upgradeAbsent_of_ne_absent hmem hne
        · exact List.mem_append_left _ hmem

theorem bindShiftResponses_preserves {rs : List Response} :
    ∀ {sh : ShiftStatus},
      ((sh.users.map UserEntry.id).Nodup →
        (((rs.foldl addResponseToShift sh).users.map UserEntry.id).Nodup))
      ∧ ∀ e ∈ sh.users, e.checkin_status ≠ "absent" →
          e ∈ (rs.foldl addResponseToShift sh).users := by
  induction rs with
  | nil => intro sh; exact ⟨fun h => h, fun e he _ => he⟩
  | cons r rest ih =>
    intro sh
    constructor
    · intro h
      simpa using (@ih (addResponseToShift sh r)).1
        (addResponseToShift_users_nodup h)
    · intro e he hne
      exact (@ih (addResponseToShift sh r)).2 e
        (mem_addResponseToShift_of_ne_absent he hne) hne

theorem addResponseToShift_fresh {sh : ShiftStatus} {r : Response} {u : RUser}
    {uid : Nat} (hu : r.user = some u) (hid : u.id = some uid) (hz : uid ≠ 0)
    (hfresh : ∀ e ∈ sh.users, e.id ≠ uid) :
    (addResponseToShift sh r).users
      = sh.users ++ [userEntryFromResponse u uid (checkinFromResponse (respStatusOf r))] := by
  have hany : (sh.users.any fun x => x.id == uid) = false := by
    rw [Bool.eq_false_iff]
    intro hc
    obtain ⟨e, he, hee⟩ := List.any_eq_true.mp hc
    exact hfresh e he (by simpa using hee)
  unfold addResponseToShift
  rw [hu]
  dsimp only
  rw [hid]
  dsimp only
  rw [if_neg (by simpa using hz)]
  rw [hany]
  simp

theorem mem_addResponseToShift {sh : ShiftStatus} {r : Response} {e' : UserEntry}
    (h : e' ∈ (addResponseToShift sh r).users) :
    e' ∈ sh.users
      ∨ (∃ e ∈ sh.users, e.checkin_status = "absent"
          ∧ e' = { e with checkin_status := checkinFromResponse (respStatusOf r) }
          ∧ checkinFromResponse (respStatusOf r) ≠ "absent")
      ∨ (∃ u uid, r.user = some u ∧ u.id = some uid
          ∧ e' = userEntryFromResponse u uid (checkinFromResponse (respStatusOf r))) := by
  unfold addResponseToShift at h
  split at h
  · exact Or.inl h
  · rename_i u hu
    split at h
    · exact Or.inl h
    · rename_i uid hid
      split at h
      · exact Or.inl h
      · dsimp only at h
        split at h
        · rcases mem_upgradeAbsent h with h' | ⟨hst, e, he, _, hea, hee⟩
          · exact Or.inl h'
          · exact Or.inr (Or.inl ⟨e, he, hea, hee, hst⟩)
        · rcases List.mem_append.mp h with h' | h'
          · exact Or.inl h'
          · exact Or.inr (Or.inr ⟨u, uid, hu, hid, by simpa using h'⟩)

/-- Claim C6: the signup binder (i) keeps the users list free of
duplicate volunteer identifiers, (ii) never modifies an entry whose
provisional status is not `absent` (no downgrade), (iii) appends a
fresh volunteer with the provisional status derived from the signup,
(iv) derives `pending` from an `active` signup status, `cancelled`
from `inactive`, and `absent` otherwise, and (v) every entry after a
response is either untouched, an upgraded previously-`absent` entry,
or a freshly appended one. -/
theorem c6_signup_binder (responses : List Response) (list : List ShiftStatus)
    (hnd : ∀ sh ∈ list, (sh.users.map UserEntry.id).Nodup) :
    (∀ sh' ∈ assign_users_from_responses responses list,
        (sh'.users.map UserEntry.id).Nodup)
      ∧ (∀ sh ∈ list, ∀ e ∈ sh.users, e.checkin_status ≠ "absent" →
          e ∈ (bindShiftResponses responses sh).users)
      ∧ (∀ (sh : ShiftStatus) (r : Response) (u : RUser) (uid : Nat),
          r.user = some u → u.id = some uid → uid ≠ 0 →
          (∀ e ∈ sh.users, e.id ≠ uid) →
          (addResponseToShift sh r).users
            = sh.users
                ++ [userEntryFromResponse u uid (checkinFromResponse (respStatusOf r))])
      ∧ (∀ s' : String,
          (lowerStr s' = "active" → checkinFromResponse (some s') = "pending")
            ∧ (lowerStr s' = "inactive" → checkinFromResponse (some s') = "cancelled")
            ∧ (¬ lowerStr s' = "active" → ¬ lowerStr s' = "inactive" →
                checkinFromResponse (some s') = "absent"))
      ∧ (∀ (sh : ShiftStatus) (r : Response), ∀ e' ∈ (addResponseToShift sh r).users,
          e' ∈ sh.users
            ∨ (∃ e ∈ sh.users, e.checkin_status = "absent"
                ∧ e' = { e with checkin_status := checkinFromResponse (respStatusOf r) }
                ∧ checkinFromResponse (respStatusOf r) ≠ "absent")
            ∨ (∃ u uid, r.user = some u ∧ u.id = some uid
                ∧ e' = userEntryFromResponse u uid (checkinFromResponse (respStatusOf r)))) := by
  refine ⟨?_, ?_, ?_, ?_, ?_⟩
  · intro sh' hmem
    obtain ⟨sh, hsh, rfl⟩ := List.mem_map.mp hmem
    unfold bindShiftResponses
    split
    · exact hnd sh hsh
    · exact (bindShiftResponses_preserves).1 (hnd sh hsh)
  · intro sh hsh e he hne
    unfold bindShiftResponses
    split
    · exact he
    · exact (bindShiftResponses_preserves).2 e he hne
  · intro sh r u uid hu hid hz hfresh
    exact addResponseToShift_fresh hu hid hz hfresh
  · intro s'
    have hblank : s' = "" → lowerStr s' = "" := fun h => by rw [h]; rfl
    refine ⟨?_, ?_, ?_⟩
    · intro ha
      have hs : s' ≠ "" := fun h => by rw [hblank h] at ha; exact absurd ha (by decide)
      simp [checkinFromResponse, strTruthy, hs, ha]
    · intro ha
      have hs : s' ≠ "" := fun h => by rw [hblank h] at ha; exact absurd ha (by decide)
      have hna : ¬ lowerStr s' = "active" := fun h => by rw [h] at ha; exact absurd ha (by decide)
      simp [checkinFromResponse, strTruthy, hs, ha, hna]
    · intro hna hni
      simp [checkinFromResponse, strTruthy, hna, hni]
  · intro sh r e' he'
    exact mem_addResponseToShift he'

/-- Witness for C6, binding one active signup to one bare shift. -/
theorem c6_signup_binder_witness :
    (∀ sh' ∈ assign_users_from_responses [respW] [shiftW],
        (sh'.users.map UserEntry.id).Nodup)
      ∧ (∀ sh ∈ [shiftW],
          ∀ e ∈ sh.users, e.checkin_status ≠ "absent" →
          e ∈ (bindShiftResponses [respW] sh).users)
      ∧ (∀ (sh : ShiftStatus) (r : Response) (u : RUser) (uid : Nat),
          r.user = some u → u.id = some uid → uid ≠ 0 →
          (∀ e ∈ sh.users, e.id ≠ uid) →
          (addResponseToShift sh r).users
            = sh.users
                ++ [userEntryFromResponse u uid (checkinFromResponse (respStatusOf r))])
      ∧ (∀ s' : String,
          (lowerStr s' = "active" → checkinFromResponse (some s') = "pending")
            ∧ (lowerStr s' = "inactive" → checkinFromResponse (some s') = "cancelled")
            ∧ (¬ lowerStr s' = "active" → ¬ lowerStr s' = "inactive" →
                checkinFromResponse (some s') = "absent"))
      ∧ (∀ (sh : ShiftStatus) (r : Response), ∀ e' ∈ (addResponseToShift sh r).users,
          e' ∈ sh.users
            ∨ (∃ e ∈ sh.users, e.checkin_status = "absent"
                ∧ e' = { e with checkin_status := checkinFromResponse (respStatusOf r) }
                ∧ checkinFromResponse (respStatusOf r) ≠ "absent")
            ∨ (∃ u uid, r.user = some u ∧ u.id = some uid
                ∧ e' = userEntryFromResponse u uid (checkinFromResponse (respStatusOf r)))) :=
  c6_signup_binder [respW] _ (by decide)

/-! ## Lemmas about the correlator's per-hour application -/

theorem applyHourToShift_idFields (h : Hour) (uobj : RUser) (uid : Nat)
    (s : ShiftStatus) : idFields (applyHourToShift h uobj uid s) = idFields s := by
  unfold applyHourToShift
  split <;> rfl

theorem applyHour_idFields (n : Nat) (h : Hour) (list : List ShiftStatus) :
    (applyHour n h list).map idFields = list.map idFields := by
  unfold applyHour
  cases hu : hourUserId h with
  | none => rfl
  | some uid =>
    dsimp only
    by_cases hz : uid == 0
    · rw [if_pos hz]
    · rw [if_neg hz]
      rw [List.map_map]
      apply List.map_congr_left
      intro s _
      by_cases hg : inGroup n s && hourMatchesShift h n list s
      · simp [Function.comp, hg, applyHourToShift_idFields]
      · simp [Function.comp, hg]

theorem applyNeedHours_idFields (n : Nat) (hs : List Hour) :
    ∀ (list : List ShiftStatus),
      (applyNeedHours n hs list).map idFields = list.map idFields := by
  induction hs with
  | nil => intro list; rfl
  | cons h t ih =>
    intro list
    have : applyNeedHours n (h :: t) list = applyNeedHours n t (applyHour n h list) := rfl
    rw [this, ih (applyHour n h list), applyHour_idFields]

theorem idFields_parts {s1 s2 : ShiftStatus} (h : idFields s1 = idFields s2) :
    s1.id = s2.id ∧ s1.start = s2.start ∧ s1.«end» = s2.«end» ∧ s1.need_id = s2.need_id := by
  unfold idFields at h
  exact ⟨congrArg (fun t => t.1) h, congrArg (fun t => t.2.1) h,
    congrArg (fun t => t.2.2.1) h, congrArg (fun t => t.2.2.2) h⟩

theorem inGroup_congr (n : Nat) {s1 s2 : ShiftStatus} (h : idFields s1 = idFields s2) :
    inGroup n s1 = inGroup n s2 := by
  unfold inGroup
  rw [(idFields_parts h).2.2.2]

theorem timeMatch_congr (h : Hour) {s1 s2 : ShiftStatus}
    (hf : idFields s1 = idFields s2) : timeMatch h s1 = timeMatch h s2 := by
  unfold timeMatch
  rw [(idFields_parts hf).2.1, (idFields_parts hf).2.2.1]

theorem directApplies_congr (h : Hour) (n : Nat) {l1 l2 : List ShiftStatus}
    (hl : l1.map idFields = l2.map idFields) :
    directApplies h n l1 = directApplies h n l2 := by
  cases hss : h.shift_id with
  | none => simp [directApplies, hss]
  | some sid =>
    have key : ∀ l : List ShiftStatus,
        (l.any fun s => inGroup n s && s.id == sid)
          = (l.map idFields).any fun t => (t.2.2.2 == n && n != 0) && t.1 == sid := by
      intro l
      induction l with
      | nil => rfl
      | cons x xs ih =>
        simp only [List.any_cons, List.map_cons]
        rw [ih]
        rfl
    simp only [directApplies, hss]
    rw [key, key, hl]

theorem hourMatchesShift_congr (h : Hour) (n : Nat) {l1 l2 : List ShiftStatus}
    (hl : l1.map idFields = l2.map idFields) {s1 s2 : ShiftStatus}
    (hs : idFields s1 = idFields s2) :
    hourMatchesShift h n l1 s1 = hourMatchesShift h n l2 s2 := by
  unfold hourMatchesShift
  rw [directApplies_congr h n hl, timeMatch_congr h hs, (idFields_parts hs).1]

theorem applyHourToUser_fields (h : Hour) (u : UserEntry) :
    (applyHourToUser h u).checkin_status
        = deriveCheckinStatus (hourStatusOf h) (hourCreatedOf h)
            (hourUpdatedOf h) (hourDurationOf h)
      ∧ (applyHourToUser h u).hour_id = h.id
      ∧ (applyHourToUser h u).hour_status = hourStatusOf h
      ∧ (applyHourToUser h u).id = u.id := by
  refine ⟨?_, ?_, ?_, ?_⟩ <;>
    (simp only [applyHourToUser]
     split
     · rfl
     · split <;> rfl)

theorem find?_updateFirst (uid : Nat) (f : UserEntry → UserEntry)
    (hf : ∀ u, (f u).id = u.id) (l : List UserEntry) :
    (updateFirst uid f l).find? (fun x => x.id == uid)
      = (l.find? (fun x => x.id == uid)).map f := by
  induction l with
  | nil => rfl
  | cons x xs ih =>
    simp only [updateFirst]
    by_cases hx : x.id == uid
    · rw [if_pos hx]
      have : ((f x).id == uid) = true := by rw [hf x]; exact hx
      simp [List.find?_cons, this, hx]
    · rw [if_neg hx]
      simp [List.find?_cons, hx, ih]

theorem find?_updateFirst_ne (uid uid' : Nat) (hne : uid' ≠ uid)
    (f : UserEntry → UserEntry) (hf : ∀ u, (f u).id = u.id) (l : List UserEntry) :
    (updateFirst uid' f l).find? (fun x => x.id == uid)
      = l.find? (fun x => x.id == uid) := by
  induction l with
  | nil => rfl
  | cons x xs ih =>
    simp only [updateFirst]
    by_cases hx : x.id == uid'
    · rw [if_pos hx]
      have hx' : x.id = uid' := by simpa using hx
      have h1 : ((f x).id == uid) = false := by
        rw [hf x, hx']
        simpa using hne
      have h2 : (x.id == uid) = false := by
        rw [hx']
        simpa using hne
      simp [List.find?_cons, h1, h2]
    · rw [if_neg hx]
      simp [List.find?_cons, ih]

theorem find?_append_one {α : Type} (p : α → Bool) (l : List α) (x : α) :
    (l ++ [x]).find? p = oor (l.find? p) (if p x then some x else none) := by
  induction l with
  | nil =>
    by_cases h : p x <;> simp [List.find?_cons, h]
  | cons y ys ih =>
    by_cases h : p y <;> simp [List.find?_cons, h, ih]

theorem applyHourToShift_find (h : Hour) (uobj : RUser) (uid : Nat)
    (s : ShiftStatus) :
    ∃ e, (applyHourToShift h uobj uid s).users.find? (fun x => x.id == uid) = some e
      ∧ e.checkin_status
          = deriveCheckinStatus (hourStatusOf h) (hourCreatedOf h)
              (hourUpdatedOf h) (hourDurationOf h)
      ∧ e.hour_id = h.id
      ∧ e.hour_status = hourStatusOf h := by
  unfold applyHourToShift
  split
  · rename_i hany
    have hsome : (s.users.find? (fun x => x.id == uid)).isSome := by
      rw [List.find?_isSome]
      obtain ⟨e0, he0, hpe0⟩ := List.any_eq_true.mp hany
      exact ⟨e0, he0, hpe0⟩
    obtain ⟨e0, he0⟩ := Option.isSome_iff_exists.mp hsome
    refine ⟨applyHourToUser h e0, ?_, (applyHourToUser_fields h e0).1,
      (applyHourToUser_fields h e0).2.1, (applyHourToUser_fields h e0).2.2.1⟩
    rw [find?_updateFirst uid _ (fun u => (applyHourToUser_fields h u).2.2.2), he0]
    rfl
  · rename_i hany
    have hnone : s.users.find? (fun x => x.id == uid) = none := by
      rw [List.find?_eq_none]
      intro e he hpe
      exact hany (List.any_eq_true.mpr ⟨e, he, hpe⟩)
    refine ⟨applyHourToUser h (baseUserFromHour uobj uid), ?_,
      (applyHourToUser_fields h _).1, (applyHourToUser_fields h _).2.1,
      (applyHourToUser_fields h _).2.2.1⟩
    rw [find?_append_one, hnone]
    have hpid : ((applyHourToUser h (baseUserFromHour uobj uid)).id == uid) = true := by
      rw [(applyHourToUser_fields h _).2.2.2]
      simp [baseUserFromHour]
    simp [hpid]

theorem applyHour_get (n : Nat) (h : Hour) (list : List ShiftStatus) (i : Nat)
    (s : ShiftStatus) (hget : list.get? i = some s) :
    (applyHour n h list).get? i
      = some
          (match hourUserId h with
          | none => s
          | some uid =>
            if uid == 0 then s
            else if inGroup n s && hourMatchesShift h n list s then
              applyHourToShift h (h.user.getD {}) uid s
            else s) := by
  unfold applyHour
  cases hu : hourUserId h with
  | none => exact hget
  | some uid =>
    dsimp only
    by_cases hz : uid == 0
    · rw [if_pos hz, hget, if_pos (by simpa using hz)]
    · rw [if_neg hz, List.get?_map, hget, if_neg (by simpa using hz)]
      rfl

theorem applyHour_find_irrelevant (n : Nat) (y : Hour) (uid : Nat)
    (list0 list : List ShiftStatus)
    (hmap : list.map idFields = list0.map idFields) (i : Nat)
    (s'' s0 : ShiftStatus) (hget : list.get? i = some s'')
    (hsf : idFields s'' = idFields s0)
    (hirr : relevantHour n list0 uid s0 y = false) :
    ∃ s', (applyHour n y list).get? i = some s'
      ∧ idFields s' = idFields s''
      ∧ s'.users.find? (fun x => x.id == uid)
          = s''.users.find? (fun x => x.id == uid) := by
  rw [applyHour_get n y list i s'' hget]
  cases hu : hourUserId y with
  | none => exact ⟨s'', rfl, rfl, rfl⟩
  | some uid' =>
    dsimp only
    by_cases hz : uid' == 0
    · rw [if_pos hz]
      exact ⟨s'', rfl, rfl, rfl⟩
    · rw [if_neg hz]
      by_cases hg : inGroup n s'' && hourMatchesShift y n list s''
      · rw [if_pos hg]
        have huid : uid' ≠ uid := by
          intro hcontra
          subst hcontra
          have h3 : inGroup n s0 = true := by
            rw [← inGroup_congr n hsf]
            exact ((Bool.and_eq_true _ _).mp hg).1
          have h4 : hourMatchesShift y n list0 s0 = true := by
            rw [← hourMatchesShift_congr y n hmap hsf]
            exact ((Bool.and_eq_true _ _).mp hg).2
          rw [relevantHour] at hirr
          simp [hu, h3, h4] at hirr
          exact hz (by simpa using hirr)
        refine ⟨applyHourToShift y (y.user.getD {}) uid' s'', rfl,
          applyHourToShift_idFields _ _ _ _, ?_⟩
        unfold applyHourToShift
        split
        · exact find?_updateFirst_ne uid uid' huid _
            (fun u => (applyHourToUser_fields y u).2.2.2) _
        · rw [find?_append_one]
          have hfid :
              ((applyHourToUser y (baseUserFromHour (y.user.getD {}) uid')).id == uid)
                = false := by
            rw [(applyHourToUser_fields y _).2.2.2]
            simpa [baseUserFromHour] using huid
          rw [hfid]
          cases s''.users.find? (fun x => x.id == uid) <;> rfl
      · rw [if_neg hg]
        exact ⟨s'', rfl, rfl, rfl⟩

/-- Amended claim C5: when a volunteer has several logs that match one
shift, the correlator of `galaxy_api_sync.py` applies each matching log
in collection iteration order, so the *last* matching log in that order
— not the most recently created or updated one — determines the
volunteer's `checkin_status` and linked-log fields for the shift. -/
theorem c5_amended_last_match_wins (n : Nat) (list : List ShiftStatus) (i : Nat)
    (s : ShiftStatus) (uid : Nat) (hget : list.get? i = some s)
    (hs : List Hour) (hlast : Hour)
    (hl : (hs.filter (relevantHour n list uid s)).getLast? = some hlast) :
    ∃ s' e, (applyNeedHours n hs list).get? i = some s'
      ∧ idFields s' = idFields s
      ∧ s'.users.find? (fun x => x.id == uid) = some e
      ∧ e.checkin_status
          = deriveCheckinStatus (hourStatusOf hlast) (hourCreatedOf hlast)
              (hourUpdatedOf hlast) (hourDurationOf hlast)
      ∧ e.hour_id = hlast.id
      ∧ e.hour_status = hourStatusOf hlast := by
  induction hs using List.reverseRecOn generalizing hlast with
  | nil => cases hl
  | append_singleton ys y ih =>
    have happ : applyNeedHours n (ys ++ [y]) list
        = applyHour n y (applyNeedHours n ys list) := by
      simp [applyNeedHours, List.foldl_append]
    have hmap : (applyNeedHours n ys list).map idFields = list.map idFields :=
      applyNeedHours_idFields n ys list
    rw [List.filter_append] at hl
    by_cases hrel : relevantHour n list uid s y
    · have hfy : List.filter (relevantHour n list uid s) [y] = [y] := by
        simp [hrel]
      rw [hfy, List.getLast?_concat] at hl
      cases hl
      have hpos : ((applyNeedHours n ys list).map idFields).get? i
          = (list.map idFields).get? i := by rw [hmap]
      rw [List.get?_map, List.get?_map, hget] at hpos
      obtain ⟨s'', hs''get, hs''f⟩ := Option.map_eq_some'.mp hpos
      have hrel' := hrel
      simp only [relevantHour, Bool.and_eq_true] at hrel'
      obtain ⟨⟨⟨ha, hb⟩, hc⟩, hd⟩ := hrel'
      have hu : hourUserId y = some uid := by simpa using ha
      rw [happ, applyHour_get n y (applyNeedHours n ys list) i s'' hs''get, hu]
      dsimp only
      rw [if_neg (by simpa using hb)]
      have hguard :
          (inGroup n s'' && hourMatchesShift y n (applyNeedHours n ys list) s'')
            = true := by
        rw [inGroup_congr n hs''f, hourMatchesShift_congr y n hmap hs''f]
        simp [hc, hd]
      rw [if_pos hguard]
      obtain ⟨e, hfind, he1, he2, he3⟩ :=
        applyHourToShift_find y (y.user.getD {}) uid s''
      exact ⟨_, e, rfl, by rw [applyHourToShift_idFields, hs''f], hfind,
        he1, he2, he3⟩
    · have hfy : List.filter (relevantHour n list uid s) [y] = [] := by
        simp [hrel]
      rw [hfy, List.append_nil] at hl
      obtain ⟨s', e, hget', hf', hfind, he1, he2, he3⟩ := ih hlast hl
      obtain ⟨s'new, hget'', hf'', hfind''⟩ :=
        applyHour_find_irrelevant n y uid list (applyNeedHours n ys list)
          hmap i s' s hget' hf' (by simpa using hrel)
      exact ⟨s'new, e, by rw [happ]; exact hget'', by rw [hf'', hf'],
        by rw [hfind'']; exact hfind, he1, he2, he3⟩

/-- Witness for C5's amended claim: with `hourNewer` (created 2000)
iterated before `hourOlder` (created 1000), the older-but-last log
determines the entry. -/
theorem c5_amended_last_match_wins_witness :
    ∃ s' e, (applyNeedHours 2 [hourNewer, hourOlder] [shiftC5]).get? 0 = some s'
      ∧ idFields s' = idFields shiftC5
      ∧ s'.users.find? (fun x => x.id == 5) = some e
      ∧ e.checkin_status
          = deriveCheckinStatus (hourStatusOf hourOlder) (hourCreatedOf hourOlder)
              (hourUpdatedOf hourOlder) (hourDurationOf hourOlder)
      ∧ e.hour_id = hourOlder.id
      ∧ e.hour_status = hourStatusOf hourOlder :=
  c5_amended_last_match_wins 2 [shiftC5] 0 shiftC5 5 (by decide)
    [hourNewer, hourOlder] hourOlder (by decide)

/-! ## Lemmas about the synthesizer's grouping -/

theorem mem_comboKeys {hs : List Hour} {h : Hour} (hmem : h ∈ hs) :
    comboKey h ∈ comboKeys hs := by
  induction hs with
  | nil => cases hmem
  | cons x t ih =>
    rcases List.mem_cons.mp hmem with hx | ht
    · subst hx
      exact List.mem_cons_self _ _
    · simp only [comboKeys]
      by_cases hk : comboKey h = comboKey x
      · rw [hk]
        exact List.mem_cons_self _ _
      · exact List.mem_cons_of_mem _
          (List.mem_filter.mpr ⟨ih ht, by simpa using hk⟩)

theorem combo_exists {dbHours : List Hour} {h : Hour} {n u : Nat}
    (hmem : h ∈ approvedHours dbHours) (hn : h.need_id = some n)
    (hu : h.user.bind RUser.id = some u) :
    ∃ c ∈ combosOf dbHours,
      c.need_id = n ∧ c.user_id = u ∧ h ∈ c.hours
        ∧ c.hours = (approvedHours dbHours).filter
            (fun g => g.need_id == some n && (g.user.bind RUser.id) == some u)
        ∧ c.min_start = minField Hour.hour_date_start c.hours
        ∧ c.max_end = maxField Hour.hour_date_end c.hours := by
  have hkey : comboKey h = (n, u) := by
    simp [comboKey, hn, hu]
  have hk := mem_comboKeys hmem
  rw [hkey] at hk
  refine ⟨_, List.mem_map.mpr ⟨(n, u), hk, rfl⟩, rfl, rfl, ?_, rfl, rfl, rfl⟩
  exact List.mem_filter.mpr ⟨hmem, by simp [hn, hu]⟩

theorem minField_isSome {f : Hour → Option Int} {hs : List Hour} {g : Hour}
    (hg : g ∈ hs) (hf : (f g).isSome) : (minField f hs).isSome := by
  induction hs with
  | nil => cases hg
  | cons x t ih =>
    simp only [minField]
    rcases List.mem_cons.mp hg with hx | ht
    · subst hx
      obtain ⟨a, ha⟩ := Option.isSome_iff_exists.mp hf
      rw [ha]
      cases minField f t <;> simp
    · have := ih ht
      obtain ⟨b, hb⟩ := Option.isSome_iff_exists.mp this
      rw [hb]
      cases f x <;> simp

@[simp] theorem oor_none_right {α : Type} (a : Option α) : oor a none = a := by
  cases a <;> rfl

theorem maxField_isSome {f : Hour → Option Int} {hs : List Hour} {g : Hour}
    (hg : g ∈ hs) (hf : (f g).isSome) : (maxField f hs).isSome := by
  induction hs with
  | nil => cases hg
  | cons x t ih =>
    simp only [maxField]
    rcases List.mem_cons.mp hg with hx | ht
    · subst hx
      obtain ⟨a, ha⟩ := Option.isSome_iff_exists.mp hf
      rw [ha]
      cases maxField f t <;> simp
    · have := ih ht
      obtain ⟨b, hb⟩ := Option.isSome_iff_exists.mp this
      rw [hb]
      cases f x <;> simp

theorem syntheticShiftsFor_id_ne_num {needs : List Need} {dbHours : List Hour}
    {t : Int} {db : DB} {r : ShiftStatus}
    (h : r ∈ syntheticShiftsFor needs dbHours t db) (m : Nat) :
    r.id ≠ MId.num m := by
  obtain ⟨c, _, hsyn⟩ := mem_syntheticShiftsFor h
  obtain ⟨_, _, _, hid, hideq⟩ := synShiftFor_spec hsyn
  rw [hideq]
  intro hcontra
  cases hcontra

/-- Core of the idempotence argument: writing the same batch on top of
the first pass's final collection inserts nothing, every orphan combo
is skipped by the duplicate guard, and the collection is unchanged key
by key. -/
theorem second_pass_core (needs : List Need) (dbHours : List Hour) (now : Int)
    (L : List ShiftStatus)
    (hreg : ∀ s ∈ L, ∃ m : Nat, s.id = MId.num m)
    (hsyn : ((syntheticShiftsFor needs dbHours now
        (save_shift_status_records (fun _ => false) [] L).1).map
        ShiftStatus.id).Nodup) :
    (save_shift_status_records (fun _ => false)
        (synGo (save_shift_status_records (fun _ => false) [] L).1 {}
          (syntheticShiftsFor needs dbHours now
            (save_shift_status_records (fun _ => false) [] L).1)).1
        L).2.inserted = 0
      ∧ syntheticShiftsFor needs dbHours now
          (save_shift_status_records (fun _ => false)
            (synGo (save_shift_status_records (fun _ => false) [] L).1 {}
              (syntheticShiftsFor needs dbHours now
                (save_shift_status_records (fun _ => false) [] L).1)).1
            L).1 = []
      ∧ ∀ k,
          dbFind
            (save_shift_status_records (fun _ => false)
              (synGo (save_shift_status_records (fun _ => false) [] L).1 {}
                (syntheticShiftsFor needs dbHours now
                  (save_shift_status_records (fun _ => false) [] L).1)).1
              L).1 k
          = dbFind
              (synGo (save_shift_status_records (fun _ => false) [] L).1 {}
                (syntheticShiftsFor needs dbHours now
                  (save_shift_status_records (fun _ => false) [] L).1)).1 k := by
  set db1 := (save_shift_status_records (fun _ => false) [] L).1 with hdb1
  set synL1 := syntheticShiftsFor needs dbHours now db1 with hsynL1
  set r1db := (synGo db1 {} synL1).1 with hr1db
  set D := (save_shift_status_records (fun _ => false) r1db L).1 with hD
  have hnd1 : nodupKeys db1 := by
    rw [hdb1]
    simpa [save_shift_status_records] using
      nodupKeys_saveGo (fun _ => false) L 0 [] {} (by simp [nodupKeys])
  have hfind1 : ∀ k, dbFind db1 k = lastOcc (okFrom (fun _ => false) 0 L) k := by
    intro k
    rw [hdb1]
    simpa [save_shift_status_records] using saveGo_db_find (fun _ => false) L 0 [] {} k
  have hfindr1 : ∀ k,
      dbFind r1db k
        = oor (lastOcc synL1 k) (lastOcc (okFrom (fun _ => false) 0 L) k) := by
    intro k
    rw [hr1db, synGo_db_find, hfind1]
  have hfindD : ∀ k,
      dbFind D k = oor (lastOcc (okFrom (fun _ => false) 0 L) k) (dbFind r1db k) := by
    intro k
    rw [hD]
    simpa [save_shift_status_records] using
      saveGo_db_find (fun _ => false) L 0 r1db {} k
  have hokL : ∀ s ∈ okFrom (fun _ => false) 0 L, ∃ m, s.id = MId.num m :=
    fun s hsm => hreg s (okFrom_subset hsm)
  have hDr1 : ∀ k, dbFind D k = dbFind r1db k := by
    intro k
    rw [hfindD k]
    cases hok : lastOcc (okFrom (fun _ => false) 0 L) k with
    | none => simp
    | some s =>
      obtain ⟨hsmem, hsid⟩ := lastOcc_eq_some hok
      obtain ⟨m, hm⟩ := hokL s hsmem
      have hnone : lastOcc synL1 k = none := by
        apply lastOcc_eq_none_of_forall
        intro t ht htk
        refine syntheticShiftsFor_id_ne_num (hsynL1 ▸ ht) m ?_
        rw [htk, ← hsid, hm]
      have hr1 : dbFind r1db k = some s := by
        rw [hfindr1 k, hnone, hok]
        rfl
      rw [hr1]
      rfl
  have hsynL2nil : syntheticShiftsFor needs dbHours now D = [] := by
    unfold syntheticShiftsFor
    apply List.filterMap_eq_nil.mpr
    intro c hc
    by_cases h0 : c.need_id == 0 || c.user_id == 0
    · rw [if_pos h0]
    · rw [if_neg h0]
      cases hb : synShiftFor needs now c with
      | none =>
        by_cases hqD : completedQuery D c.need_id c.user_id
        · rw [if_pos hqD]
        · rw [if_neg hqD]
      | some sc =>
        have hcq : completedQuery D c.need_id c.user_id = true := by
          by_cases hq1 : completedQuery db1 c.need_id c.user_id
          · obtain ⟨r, hrmem, hrP⟩ := List.any_eq_true.mp hq1
            have hfind : dbFind db1 r.id = some r := dbFind_of_mem_nodup hrmem hnd1
            rw [hfind1] at hfind
            have hDfind : dbFind D r.id = some r := by
              rw [hfindD, hfind]
              rfl
            exact List.any_eq_true.mpr ⟨r, mem_of_dbFind_eq_some hDfind, hrP⟩
          · have hscmem : sc ∈ synL1 := by
              rw [hsynL1]
              exact List.mem_filterMap.mpr
                ⟨c, hc, by rw [if_neg h0, if_neg hq1]; exact hb⟩
            have hlo : lastOcc synL1 sc.id = some sc :=
              lastOcc_of_mem_nodup hscmem (hsynL1 ▸ hsyn)
            obtain ⟨hsl1, hneed, ⟨e, heu, hest, heid⟩, hid, hideq⟩ := synShiftFor_spec hb
            have hokLnone : lastOcc (okFrom (fun _ => false) 0 L) sc.id = none := by
              apply lastOcc_eq_none_of_forall
              intro t ht htk
              obtain ⟨m, hm⟩ := hokL t ht
              have : MId.num m = sc.id := by rw [← hm, htk]
              rw [hideq] at this
              cases this
            have hDfind : dbFind D sc.id = some sc := by
              rw [hfindD, hokLnone, hfindr1, hlo]
              rfl
            refine List.any_eq_true.mpr ⟨sc, mem_of_dbFind_eq_some hDfind, ?_⟩
            simp [hneed, heu, hest, heid]
        rw [if_pos hcq]
  refine ⟨?_, hsynL2nil, ?_⟩
  · have hpre : ∀ s ∈ L, s.id.truthy → (dbFind r1db s.id).isSome := by
      intro s hsm hst
      rw [hfindr1]
      exact oor_isSome_right (lastOcc_isSome_of_mem (mem_okFrom_noFail hsm hst))
    simpa [save_shift_status_records] using
      saveGo_inserted_zero (fun _ => false) L 0 r1db {} hpre
  · exact hDr1

/-- Claim C3: running the reconciliation pass twice over one unchanged
snapshot (same needs, responses and hours, same pass timestamp),
starting from an empty derived collection, performs zero inserts in
both the batch writer and the synthesizer on the second run, and leaves
every persisted record — in particular every volunteer's
`checkin_status` — exactly as the first run left it, key by key.  The
two side conditions always hold for real data: upstream shift
identifiers are numeric, and distinct orphan combos generate distinct
`syn_…` identifiers. -/
theorem c3_idempotence (futureOnly : Bool) (now : Int) (needs : List Need)
    (responses : List Response) (dbHours : List Hour)
    (hreg : (regularBatch futureOnly now needs responses dbHours).all
        (fun s =>
          match s.id with
          | MId.num _ => true
          | MId.str _ => false) = true)
    (hsyn : ((syntheticShiftsFor needs dbHours now
        (save_shift_status_records (fun _ => false) []
          (regularBatch futureOnly now needs responses dbHours)).1).map
        ShiftStatus.id).Nodup) :
    (generate_shift_status false futureOnly now needs responses dbHours
        (generate_shift_status false futureOnly now needs responses dbHours
          []).db).saveStats.inserted = 0
      ∧ (generate_shift_status false futureOnly now needs responses dbHours
          (generate_shift_status false futureOnly now needs responses dbHours
            []).db).synStats.inserted = 0
      ∧ ∀ k,
          dbFind
            (generate_shift_status false futureOnly now needs responses dbHours
              (generate_shift_status false futureOnly now needs responses dbHours
                []).db).db k
          = dbFind
              (generate_shift_status false futureOnly now needs responses dbHours
                []).db k := by
  by_cases hemp : (regularBatch futureOnly now needs responses dbHours).isEmpty
  · simp [generate_shift_status, hemp]
  · have hreg' : ∀ s ∈ regularBatch futureOnly now needs responses dbHours,
        ∃ m : Nat, s.id = MId.num m := by
      intro s hs
      have hb := List.all_eq_true.mp hreg s hs
      cases hid : s.id with
      | num m => exact ⟨m, rfl⟩
      | str q => rw [hid] at hb; cases hb
    obtain ⟨h1, h2, h3⟩ := second_pass_core needs dbHours now
      (regularBatch futureOnly now needs responses dbHours) hreg' hsyn
    have hrun1 : (generate_shift_status false futureOnly now needs responses
          dbHours []).db
        = (synGo
            (save_shift_status_records (fun _ => false) []
              (regularBatch futureOnly now needs responses dbHours)).1 {}
            (syntheticShiftsFor needs dbHours now
              (save_shift_status_records (fun _ => false) []
                (regularBatch futureOnly now needs responses dbHours)).1)).1 := by
      simp only [generate_shift_status, process_synthetic_shifts_for_approved_hours,
        upsertSynShifts]
      rw [if_neg hemp]
      rfl
    rw [hrun1]
    have hout : generate_shift_status false futureOnly now needs responses dbHours
          (synGo
            (save_shift_status_records (fun _ => false) []
              (regularBatch futureOnly now needs responses dbHours)).1 {}
            (syntheticShiftsFor needs dbHours now
              (save_shift_status_records (fun _ => false) []
                (regularBatch futureOnly now needs responses dbHours)).1)).1
        = { db :=
              (synGo
                (save_shift_status_records (fun _ => false)
                  (synGo
                    (save_shift_status_records (fun _ => false) []
                      (regularBatch futureOnly now needs responses dbHours)).1 {}
                    (syntheticShiftsFor needs dbHours now
                      (save_shift_status_records (fun _ => false) []
                        (regularBatch futureOnly now needs responses dbHours)).1)).1
                  (regularBatch futureOnly now needs responses dbHours)).1 {}
                (syntheticShiftsFor needs dbHours now
                  (save_shift_status_records (fun _ => false)
                    (synGo
                      (save_shift_status_records (fun _ => false) []
                        (regularBatch futureOnly now needs responses dbHours)).1 {}
                      (syntheticShiftsFor needs dbHours now
                        (save_shift_status_records (fun _ => false) []
                          (regularBatch futureOnly now needs responses
                            dbHours)).1)).1
                  (regularBatch futureOnly now needs responses dbHours)).1)).1
            saveStats :=
              (save_shift_status_records (fun _ => false)
                (synGo
                  (save_shift_status_records (fun _ => false) []
                    (regularBatch futureOnly now needs responses dbHours)).1 {}
                  (syntheticShiftsFor needs dbHours now
                    (save_shift_status_records (fun _ => false) []
                      (regularBatch futureOnly now needs responses dbHours)).1)).1
                (regularBatch futureOnly now needs responses dbHours)).2
            synStats :=
              (synGo
                (save_shift_status_records (fun _ => false)
                  (synGo
                    (save_shift_status_records (fun _ => false) []
                      (regularBatch futureOnly now needs responses dbHours)).1 {}
                    (syntheticShiftsFor needs dbHours now
                      (save_shift_status_records (fun _ => false) []
                        (regularBatch futureOnly now needs responses dbHours)).1)).1
                  (regularBatch futureOnly now needs responses dbHours)).1 {}
                (syntheticShiftsFor needs dbHours now
                  (save_shift_status_records (fun _ => false)
                    (synGo
                      (save_shift_status_records (fun _ => false) []
                        (regularBatch futureOnly now needs responses dbHours)).1 {}
                      (syntheticShiftsFor needs dbHours now
                        (save_shift_status_records (fun _ => false) []
                          (regularBatch futureOnly now needs responses
                            dbHours)).1)).1
                  (regularBatch futureOnly now needs responses dbHours)).1)).2 } := by
      simp only [generate_shift_status, process_synthetic_shifts_for_approved_hours,
        upsertSynShifts]
      rw [if_neg hemp]
      rfl
    rw [hout]
    refine ⟨h1, ?_, ?_⟩
    · rw [h2]
      rfl
    · intro k
      rw [h2]
      exact h3 k

/-- Witness for C3: one need with one shift, one active signup, one
orphan approved log; the second run inserts nothing and changes no
record. -/
theorem c3_idempotence_witness :
    (generate_shift_status false false 0 [needW] [respW] [hourW]
        (generate_shift_status false false 0 [needW] [respW] [hourW]
          []).db).saveStats.inserted = 0
      ∧ (generate_shift_status false false 0 [needW] [respW] [hourW]
          (generate_shift_status false false 0 [needW] [respW] [hourW]
            []).db).synStats.inserted = 0
      ∧ ∀ k,
          dbFind
            (generate_shift_status false false 0 [needW] [respW] [hourW]
              (generate_shift_status false false 0 [needW] [respW] [hourW]
                []).db).db k
          = dbFind
              (generate_shift_status false false 0 [needW] [respW] [hourW]
                []).db k :=
  c3_idempotence false 0 [needW] [respW] [hourW] (by decide) (by decide)

/-- Amended claim C2: for a TimeLog whose `hour_status` is *exactly*
the lower-case string `"approved"` (the only spelling the synthesizer's
pipeline matches) and that carries truthy need, volunteer and log
identifiers and both window timestamps — as do all the approved logs of
its `(need, volunteer)` combo — a reconciliation run *that extracts at
least one shift record* leaves, in an initially empty collection, at
least one persisted record for that need that contains the volunteer
and contains a `completed` entry, via direct correlation or via a
synthesized shift.  The nonempty-batch condition is essential: on an
empty batch `_save_shift_status_data` returns before invoking the
synthesizer and the approved log is dropped entirely.  Exactly-one does
not hold either: a log matching several shifts is applied to each (see
the counterexample), and the duplicate guard itself only checks the two
containments separately.  Malformed approved logs of *other* combos are
harmless: the synthesizer skips them combo by combo. -/
theorem c2_amended_coverage (futureOnly : Bool) (now : Int) (needs : List Need)
    (responses : List Response) (dbHours : List Hour) (h : Hour) (n u : Nat)
    (hmem : h ∈ dbHours) (hst : h.hour_status = some "approved")
    (hn : h.need_id = some n) (hn0 : n ≠ 0)
    (hu : h.user.bind RUser.id = some u) (hu0 : u ≠ 0)
    (hwf : ∀ g ∈ approvedHours dbHours, g.need_id = some n →
        g.user.bind RUser.id = some u →
        natTruthy g.id = true ∧ g.hour_date_start.isSome ∧ g.hour_date_end.isSome)
    (hne : (regularBatch futureOnly now needs responses dbHours).isEmpty = false)
    (hreg : (regularBatch futureOnly now needs responses dbHours).all
        (fun s =>
          match s.id with
          | MId.num _ => true
          | MId.str _ => false) = true)
    (hsyn : ((syntheticShiftsFor needs dbHours now
        (save_shift_status_records (fun _ => false) []
          (regularBatch futureOnly now needs responses dbHours)).1).map
        ShiftStatus.id).Nodup) :
    ∃ r ∈ (generate_shift_status false futureOnly now needs responses dbHours
        []).db,
      r.need_id = n ∧ (∃ x ∈ r.users, x.id = u)
        ∧ ∃ y ∈ r.users, y.checkin_status = "completed" := by
  have hemp : ¬ (regularBatch futureOnly now needs responses dbHours).isEmpty = true := by
    simp [hne]
  have hrun1 : (generate_shift_status false futureOnly now needs responses
        dbHours []).db
      = (synGo
          (save_shift_status_records (fun _ => false) []
            (regularBatch futureOnly now needs responses dbHours)).1 {}
          (syntheticShiftsFor needs dbHours now
            (save_shift_status_records (fun _ => false) []
              (regularBatch futureOnly now needs responses dbHours)).1)).1 := by
    simp only [generate_shift_status, process_synthetic_shifts_for_approved_hours,
      upsertSynShifts]
    rw [if_neg hemp]
    rfl
  rw [hrun1]
  set L := regularBatch futureOnly now needs responses dbHours with hL
  set db1 := (save_shift_status_records (fun _ => false) [] L).1 with hdb1
  set synL1 := syntheticShiftsFor needs dbHours now db1 with hsynL1
  have hreg' : ∀ s ∈ L, ∃ m : Nat, s.id = MId.num m := by
    intro s hs
    have hb := List.all_eq_true.mp hreg s hs
    cases hid : s.id with
    | num m => exact ⟨m, rfl⟩
    | str q => rw [hid] at hb; cases hb
  have hnd1 : nodupKeys db1 := by
    rw [hdb1]
    simpa [save_shift_status_records] using
      nodupKeys_saveGo (fun _ => false) L 0 [] {} (by simp [nodupKeys])
  have happr : h ∈ approvedHours dbHours := by
    unfold approvedHours
    exact List.mem_filter.mpr ⟨hmem, by simp [hst, hn, hu]⟩
  obtain ⟨c, hcmem, hcn, hcu, hch, hchours, hcmin, hcmax⟩ :=
    combo_exists happr hn hu
  by_cases hq1 : completedQuery db1 c.need_id c.user_id
  · obtain ⟨r, hrmem, hrP⟩ := List.any_eq_true.mp hq1
    have hfind : dbFind db1 r.id = some r := dbFind_of_mem_nodup hrmem hnd1
    have hrL : r ∈ L := by
      have := mem_saveGo (fun _ => false) L 0 [] {} r
        (by simpa [save_shift_status_records, hdb1] using hrmem)
      rcases this with h' | h'
      · cases h'
      · exact h'
    obtain ⟨m, hm⟩ := hreg' r hrL
    have hnone : lastOcc synL1 r.id = none := by
      apply lastOcc_eq_none_of_forall
      intro t ht htk
      exact syntheticShiftsFor_id_ne_num (hsynL1 ▸ ht) m (by rw [htk, hm])
    have hDfind : dbFind (synGo db1 {} synL1).1 r.id = some r := by
      rw [synGo_db_find, hnone, hfind]
      rfl
    have hrP2 := hrP
    simp only [Bool.and_eq_true] at hrP2
    obtain ⟨⟨hP1, hP2⟩, hP3⟩ := hrP2
    obtain ⟨x, hxmem, hxid⟩ := List.any_eq_true.mp hP2
    obtain ⟨y, hymem, hyst⟩ := List.any_eq_true.mp hP3
    refine ⟨r, mem_of_dbFind_eq_some hDfind, ?_,
      ⟨x, hxmem, by rw [← hcu]; simpa using hxid⟩,
      ⟨y, hymem, by simpa using hyst⟩⟩
    rw [← hcn]
    simpa using hP1
  · cases hb : synShiftFor needs now c with
    | none =>
      exfalso
      cases hhours : c.hours with
      | nil => rw [hhours] at hch; cases hch
      | cons h0 rest =>
        have hh0c : h0 ∈ (approvedHours dbHours).filter
            (fun g => g.need_id == some n && (g.user.bind RUser.id) == some u) := by
          rw [← hchours, hhours]
          exact List.mem_cons_self _ _
        have hh0m := (List.mem_filter.mp hh0c).1
        have hh0p := (List.mem_filter.mp hh0c).2
        simp only [Bool.and_eq_true, beq_iff_eq] at hh0p
        obtain ⟨hh0id, _, _⟩ := hwf h0 hh0m hh0p.1 hh0p.2
        obtain ⟨hid, hh0eq, hh0ne⟩ : ∃ hid, h0.id = some hid ∧ hid ≠ 0 := by
          cases hgid : h0.id with
          | none => rw [hgid] at hh0id; cases hh0id
          | some v =>
            rw [hgid] at hh0id
            exact ⟨v, rfl, by simpa [natTruthy] using hh0id⟩
        have hmnS : c.min_start.isSome := by
          rw [hcmin]
          exact minField_isSome hch (hwf h happr hn hu).2.1
        have hmxS : c.max_end.isSome := by
          rw [hcmax]
          exact maxField_isSome hch (hwf h happr hn hu).2.2
        obtain ⟨st, hstq⟩ := Option.isSome_iff_exists.mp hmnS
        obtain ⟨en, henq⟩ := Option.isSome_iff_exists.mp hmxS
        unfold synShiftFor at hb
        rw [if_neg (by simp [hcn, hcu, hn0, hu0])] at hb
        rw [hhours] at hb
        dsimp only at hb
        rw [hh0eq, hstq, henq] at hb
        dsimp only at hb
        rw [if_neg (by simpa using hh0ne)] at hb
        simp at hb
    | some sc =>
      have hscmem : sc ∈ synL1 := by
        rw [hsynL1]
        unfold syntheticShiftsFor
        exact List.mem_filterMap.mpr
          ⟨c, hcmem, by
            rw [if_neg (by simp [hcn, hcu, hn0, hu0]), if_neg hq1]
            exact hb⟩
      have hlo : lastOcc synL1 sc.id = some sc :=
        lastOcc_of_mem_nodup hscmem (hsynL1 ▸ hsyn)
      have hDfind : dbFind (synGo db1 {} synL1).1 sc.id = some sc := by
        rw [synGo_db_find, hlo]
        rfl
      obtain ⟨_, hneed, ⟨e, heu, hest, heid⟩, _⟩ := synShiftFor_spec hb
      refine ⟨sc, mem_of_dbFind_eq_some hDfind, by rw [hneed, hcn], ?_, ?_⟩
      · exact ⟨e, by rw [heu]; exact List.mem_cons_self _ _, by rw [heid, hcu]⟩
      · exact ⟨e, by rw [heu]; exact List.mem_cons_self _ _, hest⟩

/-- Witness for C2's amended claim: the orphan approved log of
`hourW` ends up represented by a synthesized `completed` record. -/
theorem c2_amended_coverage_witness :
    ∃ r ∈ (generate_shift_status false false 0 [needW] [] [hourW] []).db,
      r.need_id = 6 ∧ (∃ x ∈ r.users, x.id = 5)
        ∧ ∃ y ∈ r.users, y.checkin_status = "completed" :=
  c2_amended_coverage false 0 [needW] [] [hourW] hourW 6 5 (by decide)
    (by decide) (by decide) (by decide) (by decide) (by decide) (by decide)
    (by decide) (by decide) (by decide)
